import Mathlib

/-!
Verification of the Queue repository's core components against its
specification.

Shallow embedding notes:
* `double` values (entropy, the 0.1 / 0.01 thresholds) are modelled as exact
  real numbers; `std::log2` is `Real.logb 2`.
* `size_t` is modelled as `Nat`; the one place where unsigned wraparound is
  reachable (`window_.size() - 5` in `adapt_window_size`) is modelled
  explicitly by `wsub`, assuming the 64-bit `size_t` of the target platform.
* The `uint32_t` counters `action_counts_` / `total_actions_` wrap at 2^32;
  this is modelled exactly (increments reduce mod `2^32`, decrements use
  `wsub32`), since the unvalidated constructor admits window sizes for which
  2^32 simultaneously held events are reachable.
* Mutexes, condition variables and timestamps are not modelled; every
  operation is an atomic step on the state (the code serializes each public
  operation under a lock).
-/

/-- 64-bit `size_t` subtraction `a - b` with unsigned wraparound
(faithful for `a, b < 2^64`, which holds for all `size_t` values). -/
def wsub (a b : ℕ) : ℕ :=
  if b ≤ a then a - b else 2 ^ 64 - (b - a)

/-- 32-bit `uint32_t` subtraction `a - b` with unsigned wraparound
(faithful for `a, b < 2^32`, which holds for all stored counter values). -/
def wsub32 (a b : ℕ) : ℕ :=
  if b ≤ a then a - b else 2 ^ 32 - (b - a)

/-- `enum class TraderAction : uint8_t { HOLD = 0, BUY = 1, SELL = 2 }`
from `include/market_data.hpp`. -/
inductive TraderAction : Type where
  | HOLD
  | BUY
  | SELL
deriving DecidableEq

/-- State of `SlidingEntropyCalculator` (`include/market_data.hpp`):
configuration, the deque `window_` (front = oldest), the per-category
counter array (indexed by the action), and the entropy fields.
The mutex and `last_update_time_` are not modelled. -/
structure SlidingEntropyCalculator where
  window_size : ℕ
  min_window : ℕ
  max_window : ℕ
  window : List TraderAction
  action_counts : TraderAction → ℕ
  total_actions : ℕ
  current_entropy : ℝ
  previous_entropy : ℝ

namespace SlidingEntropyCalculator

/-- The constructor: empty window, zero counts, zero entropies.
(Defaults in the source are `(100, 50, 500)`.) -/
def init (ws minw maxw : ℕ) : SlidingEntropyCalculator :=
  ⟨ws, minw, maxw, [], fun _ => 0, 0, 0, 0⟩

/-- `remove_oldest_action()`: pop the front of the deque and decrement its
category count and the total (no-op on an empty window).  The `--` on the
`uint32_t` counters wraps, hence `wsub32`. -/
def remove_oldest_action (s : SlidingEntropyCalculator) : SlidingEntropyCalculator :=
  match s.window with
  | [] => s
  | oldest :: rest =>
    { s with window := rest
             action_counts := Function.update s.action_counts oldest
               (wsub32 (s.action_counts oldest) 1)
             total_actions := wsub32 s.total_actions 1 }

/-- One term `p * log2 p` of the entropy loop, guarded by `count > 0`. -/
noncomputable def termContrib (c total : ℕ) : ℝ :=
  if 0 < c then ((c : ℝ) / (total : ℝ)) * Real.logb 2 ((c : ℝ) / (total : ℝ)) else 0

/-- The value computed by `update_entropy_incremental()` from the counts:
`0` when `total_actions_ == 0`, otherwise `-Σ p_i log2 p_i` over the three
categories with positive count. -/
noncomputable def entropyFromCounts (counts : TraderAction → ℕ) (total : ℕ) : ℝ :=
  if total = 0 then 0
  else -(termContrib (counts .HOLD) total + termContrib (counts .BUY) total
         + termContrib (counts .SELL) total)

/-- `update_entropy_incremental()`: stash the previous entropy, recompute the
current one from the counts. -/
noncomputable def update_entropy_incremental (s : SlidingEntropyCalculator) :
    SlidingEntropyCalculator :=
  { s with previous_entropy := s.current_entropy
           current_entropy := entropyFromCounts s.action_counts s.total_actions }

open Classical in
/-- `adapt_window_size()`: grow/shrink the target window size from the
magnitude of the entropy change.  Note `window_.size() - 5` is `size_t`
arithmetic, hence `wsub`. -/
noncomputable def adapt_window_size (s : SlidingEntropyCalculator) :
    SlidingEntropyCalculator :=
  if |s.current_entropy - s.previous_entropy| > 0.1 ∧ s.window.length < s.max_window then
    { s with window_size := min (s.window.length + 10) s.max_window }
  else if |s.current_entropy - s.previous_entropy| < 0.01 ∧ s.window.length > s.min_window then
    { s with window_size := max (wsub s.window.length 5) s.min_window }
  else s

/-- The unguarded part of an admission: `push_back`, count increment, total
increment (shared text of `add_action` and `add_actions_batch`).  The `++`
on the `uint32_t` counters wraps at `2^32`. -/
def appendAction (s : SlidingEntropyCalculator) (a : TraderAction) :
    SlidingEntropyCalculator :=
  { s with window := s.window ++ [a]
           action_counts := Function.update s.action_counts a
             ((s.action_counts a + 1) % 2 ^ 32)
           total_actions := (s.total_actions + 1) % 2 ^ 32 }

/-- One iteration of the admission loop: evict the oldest when the window is
at (or beyond) `window_size_`, then append. -/
def pushStep (s : SlidingEntropyCalculator) (a : TraderAction) :
    SlidingEntropyCalculator :=
  appendAction (if s.window.length ≥ s.window_size then remove_oldest_action s else s) a

/-- `add_action(action)`: admit one event, then update entropy, then adapt
the window size. -/
noncomputable def add_action (a : TraderAction) (s : SlidingEntropyCalculator) :
    SlidingEntropyCalculator :=
  adapt_window_size (update_entropy_incremental (pushStep s a))

/-- `add_actions_batch(actions)`: admit every event, then update entropy and
adapt the window size once. -/
noncomputable def add_actions_batch (l : List TraderAction)
    (s : SlidingEntropyCalculator) : SlidingEntropyCalculator :=
  adapt_window_size (update_entropy_incremental (l.foldl pushStep s))

/-- `trim_window()`: evict oldest-first while the window exceeds
`window_size_`. -/
def trim_window (s : SlidingEntropyCalculator) : SlidingEntropyCalculator :=
  if h : s.window.length > s.window_size then trim_window (remove_oldest_action s) else s
termination_by s.window.length
decreasing_by
  cases hw : s.window with
  | nil => rw [hw] at h; simp at h
  | cons o rest => simp [remove_oldest_action, hw]

/-- `set_window_size(size)`: accept only sizes inside
`[min_window_, max_window_]`, then trim immediately. -/
def set_window_size (size : ℕ) (s : SlidingEntropyCalculator) :
    SlidingEntropyCalculator :=
  if s.min_window ≤ size ∧ size ≤ s.max_window then
    trim_window { s with window_size := size }
  else s

/-- `clear()`: reset everything except the configuration. -/
def clear (s : SlidingEntropyCalculator) : SlidingEntropyCalculator :=
  { s with window := []
           action_counts := fun _ => 0
           total_actions := 0
           current_entropy := 0
           previous_entropy := 0 }

/-- `get_current_entropy()`. -/
def get_current_entropy (s : SlidingEntropyCalculator) : ℝ := s.current_entropy

/-- `get_window_actions()`: a snapshot copy of the window contents. -/
def get_window_actions (s : SlidingEntropyCalculator) : List TraderAction := s.window

end SlidingEntropyCalculator

/-- A public mutating operation of `SlidingEntropyCalculator`. -/
inductive SECOp where
  | add (a : TraderAction)
  | batch (l : List TraderAction)
  | setws (n : ℕ)
  | clear

namespace SECOp

/-- Is the operation a `set_window_size` call? -/
def isSetws : SECOp → Bool
  | .setws _ => true
  | _ => false

/-- Is the operation an `add_action` or `add_actions_batch` call? -/
def isAddLike : SECOp → Bool
  | .add _ => true
  | .batch _ => true
  | _ => false

end SECOp

/-- Execute one public operation. -/
noncomputable def runOp (op : SECOp) (s : SlidingEntropyCalculator) :
    SlidingEntropyCalculator :=
  match op with
  | .add a => SlidingEntropyCalculator.add_action a s
  | .batch l => SlidingEntropyCalculator.add_actions_batch l s
  | .setws n => SlidingEntropyCalculator.set_window_size n s
  | .clear => SlidingEntropyCalculator.clear s

/-- Execute a sequence of public operations, oldest first. -/
noncomputable def runOps (ops : List SECOp) (s : SlidingEntropyCalculator) :
    SlidingEntropyCalculator :=
  ops.foldl (fun s op => runOp op s) s

namespace EntropyCalculator

/-- One `std::map` entry's contribution in
`EntropyCalculator::calculate_entropy` (`src/entropy_calculator.cpp`): the
map holds exactly the categories occurring in `actions`, i.e. those with
positive count. -/
noncomputable def mapTerm (actions : List TraderAction) (a : TraderAction) : ℝ :=
  if 0 < actions.count a then
    ((actions.count a : ℝ) / (actions.length : ℝ))
      * Real.logb 2 ((actions.count a : ℝ) / (actions.length : ℝ))
  else 0

/-- `EntropyCalculator::calculate_entropy(actions)`: `0` if empty, otherwise
the from-scratch Shannon entropy of the multiset of actions.  The source
keeps the per-category counts in a `std::map<TraderAction, int>` and casts
`actions.size()` to `int`; this exact-integer model is faithful only for
snapshots of fewer than `2^31` elements — beyond that the source's `int`
arithmetic overflows (undefined behavior), so every theorem comparing
against this definition carries that bound. -/
noncomputable def calculate_entropy (actions : List TraderAction) : ℝ :=
  if actions = [] then 0
  else -(mapTerm actions .HOLD + mapTerm actions .BUY + mapTerm actions .SELL)

end EntropyCalculator

/-- State of `OptimizedQueue<T>` (`include/optimized_queue.hpp`): the chain
of nodes after the dummy head (front = oldest), the atomic size counter, and
the configured bounds.  Locks, condition variables and the backpressure
threshold are not modelled (they have no effect on contents / size / return
values). -/
structure OptimizedQueue (α : Type) where
  capacity : ℕ
  batch_size : ℕ
  items : List α
  size : ℕ

namespace OptimizedQueue

/-- The constructor: empty chain, size zero. -/
def initQueue (α : Type) (capacity batch_size : ℕ) : OptimizedQueue α :=
  ⟨capacity, batch_size, [], 0⟩

/-- `push(data)`: fail iff `size_ >= capacity_` at the check, else append at
the tail and bump the size. -/
def push (q : OptimizedQueue α) (x : α) : OptimizedQueue α × Bool :=
  if q.size ≥ q.capacity then (q, false)
  else ({ q with items := q.items ++ [x], size := q.size + 1 }, true)

/-- The drain loop of `try_pop_batch`:
`while (count < batch_size && head_->next != nullptr)` pop the front into
the batch.  The first argument counts the remaining allowance
`batch_size - count`.  Returns the remaining items and the filled batch. -/
def popLoop : ℕ → List α → List α → List α × List α
  | 0, items, acc => (items, acc)
  | _ + 1, [], acc => ([], acc)
  | n + 1, x :: rest, acc => popLoop n rest (acc ++ [x])

/-- `try_pop_batch(batch)`: fail (batch untouched) iff the chain is empty;
otherwise clear the batch, drain up to `batch_size_` items, and subtract the
drained count from the size (`fetch_sub`, hence `wsub`). -/
def try_pop_batch (q : OptimizedQueue α) (batch : List α) :
    OptimizedQueue α × List α × Bool :=
  if q.items.isEmpty then (q, batch, false)
  else
    let r := popLoop q.batch_size q.items []
    ({ q with items := r.1, size := wsub q.size r.2.length }, r.2, true)

/-- Repeated `push`, keeping only the queue state. -/
def pushAll (q : OptimizedQueue α) (xs : List α) : OptimizedQueue α :=
  xs.foldl (fun q x => (q.push x).1) q

end OptimizedQueue

namespace SlidingEntropyCalculator

/-- Structural well-formedness: each `uint32_t` counter holds its window
tally reduced mod `2^32`, and `total_actions_` holds the window length
reduced mod `2^32`.  (Below 2^32 held events this is the exact tally.) -/
def Wf (s : SlidingEntropyCalculator) : Prop :=
  (∀ a, s.action_counts a = s.window.count a % 2 ^ 32)
  ∧ s.total_actions = s.window.length % 2 ^ 32

/-- The entropy field is in sync with the counts, i.e. what
`update_entropy_incremental` would produce.  This holds after construction
and after every `add_action` / `add_actions_batch` / `clear`;
`set_window_size` can break it because `trim_window` does not recompute the
entropy. -/
def EntropySync (s : SlidingEntropyCalculator) : Prop :=
  s.current_entropy = entropyFromCounts s.action_counts s.total_actions

/-- Repeated `add_action`, oldest first. -/
noncomputable def runAdds (l : List TraderAction) (s : SlidingEntropyCalculator) :
    SlidingEntropyCalculator :=
  l.foldl (fun s a => add_action a s) s

end SlidingEntropyCalculator

/-- The six-event scenario `HOLD, BUY, SELL, HOLD, BUY, SELL` used by the
maximum-entropy test. -/
def sixEvents : List TraderAction :=
  [TraderAction.HOLD, TraderAction.BUY, TraderAction.SELL,
   TraderAction.HOLD, TraderAction.BUY, TraderAction.SELL]

namespace SlidingEntropyCalculator

theorem remove_oldest_window_size (s : SlidingEntropyCalculator) :
    (remove_oldest_action s).window_size = s.window_size := by
  unfold remove_oldest_action; split <;> rfl

theorem remove_oldest_min_window (s : SlidingEntropyCalculator) :
    (remove_oldest_action s).min_window = s.min_window := by
  unfold remove_oldest_action; split <;> rfl

theorem remove_oldest_max_window (s : SlidingEntropyCalculator) :
    (remove_oldest_action s).max_window = s.max_window := by
  unfold remove_oldest_action; split <;> rfl

theorem remove_oldest_current (s : SlidingEntropyCalculator) :
    (remove_oldest_action s).current_entropy = s.current_entropy := by
  unfold remove_oldest_action; split <;> rfl

theorem remove_oldest_previous (s : SlidingEntropyCalculator) :
    (remove_oldest_action s).previous_entropy = s.previous_entropy := by
  unfold remove_oldest_action; split <;> rfl

theorem adapt_window (s : SlidingEntropyCalculator) :
    (adapt_window_size s).window = s.window := by
  unfold adapt_window_size
  split
  · rfl
  · split <;> rfl

theorem adapt_action_counts (s : SlidingEntropyCalculator) :
    (adapt_window_size s).action_counts = s.action_counts := by
  unfold adapt_window_size
  split
  · rfl
  · split <;> rfl

theorem adapt_total_actions (s : SlidingEntropyCalculator) :
    (adapt_window_size s).total_actions = s.total_actions := by
  unfold adapt_window_size
  split
  · rfl
  · split <;> rfl

theorem adapt_current (s : SlidingEntropyCalculator) :
    (adapt_window_size s).current_entropy = s.current_entropy := by
  unfold adapt_window_size
  split
  · rfl
  · split <;> rfl

theorem adapt_previous (s : SlidingEntropyCalculator) :
    (adapt_window_size s).previous_entropy = s.previous_entropy := by
  unfold adapt_window_size
  split
  · rfl
  · split <;> rfl

theorem adapt_min_window (s : SlidingEntropyCalculator) :
    (adapt_window_size s).min_window = s.min_window := by
  unfold adapt_window_size
  split
  · rfl
  · split <;> rfl

theorem adapt_max_window (s : SlidingEntropyCalculator) :
    (adapt_window_size s).max_window = s.max_window := by
  unfold adapt_window_size
  split
  · rfl
  · split <;> rfl

theorem update_action_counts (s : SlidingEntropyCalculator) :
    (update_entropy_incremental s).action_counts = s.action_counts := rfl

theorem update_total_actions (s : SlidingEntropyCalculator) :
    (update_entropy_incremental s).total_actions = s.total_actions := rfl

theorem update_window (s : SlidingEntropyCalculator) :
    (update_entropy_incremental s).window = s.window := rfl

theorem update_current (s : SlidingEntropyCalculator) :
    (update_entropy_incremental s).current_entropy
      = entropyFromCounts s.action_counts s.total_actions := rfl

theorem pushStep_window_size (s : SlidingEntropyCalculator) (a : TraderAction) :
    (pushStep s a).window_size = s.window_size := by
  unfold pushStep appendAction
  split <;> simp [remove_oldest_window_size]

theorem pushStep_min_window (s : SlidingEntropyCalculator) (a : TraderAction) :
    (pushStep s a).min_window = s.min_window := by
  unfold pushStep appendAction
  split <;> simp [remove_oldest_min_window]

theorem pushStep_max_window (s : SlidingEntropyCalculator) (a : TraderAction) :
    (pushStep s a).max_window = s.max_window := by
  unfold pushStep appendAction
  split <;> simp [remove_oldest_max_window]

theorem foldl_pushStep_window_size (l : List TraderAction) :
    ∀ s : SlidingEntropyCalculator, (l.foldl pushStep s).window_size = s.window_size := by
  induction l with
  | nil => intro s; rfl
  | cons a t ih => intro s; simpa [List.foldl_cons, pushStep_window_size] using ih (pushStep s a)

theorem foldl_pushStep_min_window (l : List TraderAction) :
    ∀ s : SlidingEntropyCalculator, (l.foldl pushStep s).min_window = s.min_window := by
  induction l with
  | nil => intro s; rfl
  | cons a t ih => intro s; simpa [List.foldl_cons, pushStep_min_window] using ih (pushStep s a)

theorem foldl_pushStep_max_window (l : List TraderAction) :
    ∀ s : SlidingEntropyCalculator, (l.foldl pushStep s).max_window = s.max_window := by
  induction l with
  | nil => intro s; rfl
  | cons a t ih => intro s; simpa [List.foldl_cons, pushStep_max_window] using ih (pushStep s a)

/-- The three per-category counts of a list sum to its length. -/
theorem count_three (w : List TraderAction) :
    w.count .HOLD + w.count .BUY + w.count .SELL = w.length := by
  induction w with
  | nil => rfl
  | cons x t ih => cases x <;> simp [List.count_cons] <;> omega

theorem wf_init (ws minw maxw : ℕ) : Wf (init ws minw maxw) := by
  refine ⟨fun a => ?_, rfl⟩
  simp [init]

theorem wf_remove_oldest (s : SlidingEntropyCalculator) (h : Wf s) :
    Wf (remove_oldest_action s) := by
  obtain ⟨hc, ht⟩ := h
  unfold remove_oldest_action
  split
  · exact ⟨hc, ht⟩
  · rename_i oldest rest heq
    refine ⟨fun a => ?_, ?_⟩
    · by_cases ha : a = oldest
      · subst ha
        simp only [Function.update_same]
        rw [hc a, heq, List.count_cons_self]
        unfold wsub32
        split <;> omega
      · simp only [Function.update_noteq ha]
        rw [hc a, heq, List.count_cons_of_ne ha]
    · rw [ht, heq]
      simp only [List.length_cons]
      unfold wsub32
      split <;> omega

theorem wf_appendAction (s : SlidingEntropyCalculator) (a : TraderAction) (h : Wf s) :
    Wf (appendAction s a) := by
  obtain ⟨hc, ht⟩ := h
  refine ⟨fun b => ?_, ?_⟩
  · by_cases hb : b = a
    · subst hb
      simp only [appendAction, Function.update_same, List.count_append,
        List.count_singleton_self]
      rw [hc b]
      omega
    · have hz : List.count b [a] = 0 :=
        List.count_eq_zero.mpr (by simp [hb])
      simp only [appendAction, Function.update_noteq hb, List.count_append, hz]
      rw [hc b]
      omega
  · simp only [appendAction, List.length_append, List.length_singleton]
    rw [ht]
    omega

theorem wf_pushStep (s : SlidingEntropyCalculator) (a : TraderAction) (h : Wf s) :
    Wf (pushStep s a) := by
  unfold pushStep
  split
  · exact wf_appendAction _ _ (wf_remove_oldest _ h)
  · exact wf_appendAction _ _ h

theorem wf_foldl_pushStep (l : List TraderAction) :
    ∀ s : SlidingEntropyCalculator, Wf s → Wf (l.foldl pushStep s) := by
  induction l with
  | nil => intro s h; exact h
  | cons a t ih => intro s h; exact ih (pushStep s a) (wf_pushStep s a h)

theorem wf_update (s : SlidingEntropyCalculator) (h : Wf s) :
    Wf (update_entropy_incremental s) := h

theorem wf_adapt (s : SlidingEntropyCalculator) (h : Wf s) :
    Wf (adapt_window_size s) := by
  unfold adapt_window_size
  split
  · exact h
  · split
    · exact h
    · exact h

theorem wf_add_action (s : SlidingEntropyCalculator) (a : TraderAction) (h : Wf s) :
    Wf (add_action a s) :=
  wf_adapt _ (wf_update _ (wf_pushStep s a h))

theorem wf_add_actions_batch (s : SlidingEntropyCalculator) (l : List TraderAction)
    (h : Wf s) : Wf (add_actions_batch l s) :=
  wf_adapt _ (wf_update _ (wf_foldl_pushStep l s h))

theorem wf_clear (s : SlidingEntropyCalculator) : Wf (clear s) := by
  refine ⟨fun a => ?_, rfl⟩
  simp [clear]

theorem pushStep_current (s : SlidingEntropyCalculator) (a : TraderAction) :
    (pushStep s a).current_entropy = s.current_entropy := by
  unfold pushStep appendAction
  split <;> simp [remove_oldest_current]

/-- Characterization of `trim_window`: it drops the oldest entries down to
`window_size` and touches nothing but the window, counts and total. -/
theorem trim_window_spec (s : SlidingEntropyCalculator) :
    (trim_window s).window = s.window.drop (s.window.length - s.window_size)
    ∧ (trim_window s).window_size = s.window_size
    ∧ (trim_window s).min_window = s.min_window
    ∧ (trim_window s).max_window = s.max_window
    ∧ (trim_window s).current_entropy = s.current_entropy
    ∧ (trim_window s).previous_entropy = s.previous_entropy := by
  induction s using trim_window.induct with
  | case1 s hlt ih =>
    rw [trim_window, dif_pos hlt]
    obtain ⟨iw, iws, imin, imax, icur, iprev⟩ := ih
    cases hw : s.window with
    | nil => rw [hw] at hlt; simp at hlt
    | cons o rest =>
      have hrw : (remove_oldest_action s).window = rest := by
        unfold remove_oldest_action; rw [hw]
      refine ⟨?_, ?_, ?_, ?_, ?_, ?_⟩
      · have hl : s.window_size < rest.length + 1 := by
          have h2 := hlt
          rw [hw] at h2
          simpa using h2
        rw [iw, hrw, remove_oldest_window_size]
        have h1 : (o :: rest).length - s.window_size = (rest.length - s.window_size) + 1 := by
          simp only [List.length_cons]
          omega
        rw [h1, List.drop_succ_cons]
      · rw [iws, remove_oldest_window_size]
      · rw [imin, remove_oldest_min_window]
      · rw [imax, remove_oldest_max_window]
      · rw [icur, remove_oldest_current]
      · rw [iprev, remove_oldest_previous]
  | case2 s hge =>
    rw [trim_window, dif_neg hge]
    have h0 : s.window.length - s.window_size = 0 := by omega
    simp [h0]

theorem wf_trim_window (s : SlidingEntropyCalculator) (h : Wf s) :
    Wf (trim_window s) := by
  revert h
  induction s using trim_window.induct with
  | case1 s hlt ih =>
    intro h
    rw [trim_window, dif_pos hlt]
    exact ih (wf_remove_oldest _ h)
  | case2 s hge =>
    intro h
    rw [trim_window, dif_neg hge]
    exact h

theorem wf_set_window_size (n : ℕ) (s : SlidingEntropyCalculator) (h : Wf s) :
    Wf (set_window_size n s) := by
  unfold set_window_size
  split
  · exact wf_trim_window _ h
  · exact h

end SlidingEntropyCalculator

theorem wf_runOp (op : SECOp) (s : SlidingEntropyCalculator)
    (h : SlidingEntropyCalculator.Wf s) : SlidingEntropyCalculator.Wf (runOp op s) := by
  cases op with
  | add a => exact SlidingEntropyCalculator.wf_add_action s a h
  | batch l => exact SlidingEntropyCalculator.wf_add_actions_batch s l h
  | setws n => exact SlidingEntropyCalculator.wf_set_window_size n s h
  | clear => exact SlidingEntropyCalculator.wf_clear s

theorem wf_runOps (ops : List SECOp) :
    ∀ s : SlidingEntropyCalculator, SlidingEntropyCalculator.Wf s →
      SlidingEntropyCalculator.Wf (runOps ops s) := by
  induction ops with
  | nil => intro s h; exact h
  | cons op t ih => intro s h; exact ih (runOp op s) (wf_runOp op s h)

namespace SlidingEntropyCalculator

theorem sync_init (ws minw maxw : ℕ) : EntropySync (init ws minw maxw) := by
  simp [EntropySync, init, entropyFromCounts]

theorem sync_add_action (a : TraderAction) (s : SlidingEntropyCalculator) :
    EntropySync (add_action a s) := by
  unfold EntropySync add_action
  rw [adapt_current, adapt_action_counts, adapt_total_actions]
  rfl

theorem sync_add_actions_batch (l : List TraderAction) (s : SlidingEntropyCalculator) :
    EntropySync (add_actions_batch l s) := by
  unfold EntropySync add_actions_batch
  rw [adapt_current, adapt_action_counts, adapt_total_actions]
  rfl

theorem sync_clear (s : SlidingEntropyCalculator) : EntropySync (clear s) := by
  simp [EntropySync, clear, entropyFromCounts]

end SlidingEntropyCalculator

theorem sync_runOps (ops : List SECOp) (hops : ops.all (fun op => !op.isSetws) = true) :
    ∀ s : SlidingEntropyCalculator, SlidingEntropyCalculator.EntropySync s →
      SlidingEntropyCalculator.EntropySync (runOps ops s) := by
  induction ops with
  | nil => intro s h; exact h
  | cons op t ih =>
    intro s h
    simp only [List.all_cons, Bool.and_eq_true] at hops
    refine ih hops.2 (runOp op s) ?_
    cases op with
    | add a => exact SlidingEntropyCalculator.sync_add_action a s
    | batch l => exact SlidingEntropyCalculator.sync_add_actions_batch l s
    | setws n => simp [SECOp.isSetws] at hops
    | clear => exact SlidingEntropyCalculator.sync_clear s

namespace SlidingEntropyCalculator

/-- When the whole batch fits without eviction, the admission loop is a plain
append: window, counts, total and the entropy fields evolve accordingly. -/
theorem foldl_pushStep_no_evict (l : List TraderAction) :
    ∀ s : SlidingEntropyCalculator, s.window.length + l.length ≤ s.window_size →
      (∀ a, s.action_counts a < 2 ^ 32) → s.total_actions < 2 ^ 32 →
      (l.foldl pushStep s).window = s.window ++ l
      ∧ (∀ a, (l.foldl pushStep s).action_counts a = (s.action_counts a + l.count a) % 2 ^ 32)
      ∧ (l.foldl pushStep s).total_actions = (s.total_actions + l.length) % 2 ^ 32
      ∧ (l.foldl pushStep s).current_entropy = s.current_entropy := by
  induction l with
  | nil =>
    intro s h hbc hbt
    refine ⟨by simp, fun a => ?_, ?_, by simp⟩
    · have hba := hbc a
      simp
      omega
    · have hbt2 := hbt
      simp
      omega
  | cons a t ih =>
    intro s h hbc hbt
    have hlt : ¬ s.window.length ≥ s.window_size := by
      simp only [List.length_cons] at h
      omega
    have hps : pushStep s a = appendAction s a := by
      unfold pushStep
      rw [if_neg hlt]
    have hlen : (appendAction s a).window.length + t.length ≤ (appendAction s a).window_size := by
      simp only [appendAction, List.length_append, List.length_singleton] at *
      simp only [List.length_cons] at h
      omega
    have hbc2 : ∀ b, (appendAction s a).action_counts b < 2 ^ 32 := by
      intro b
      by_cases hb : b = a
      · subst hb
        simp only [appendAction, Function.update_same]
        exact Nat.mod_lt _ (by norm_num)
      · simp only [appendAction, Function.update_noteq hb]
        exact hbc b
    have hbt2 : (appendAction s a).total_actions < 2 ^ 32 := by
      simp only [appendAction]
      exact Nat.mod_lt _ (by norm_num)
    obtain ⟨iw, ic, it, icur⟩ := ih (appendAction s a) hlen hbc2 hbt2
    rw [List.foldl_cons, hps]
    refine ⟨?_, fun b => ?_, ?_, ?_⟩
    · rw [iw]
      simp [appendAction]
    · rw [ic b]
      by_cases hb : b = a
      · subst hb
        simp only [appendAction, Function.update_same, List.count_cons_self]
        omega
      · simp only [appendAction, Function.update_noteq hb, List.count_cons_of_ne hb]
    · rw [it]
      simp only [appendAction, List.length_cons]
      omega
    · rw [icur]
      simp [appendAction]

theorem termContrib_zero (T : ℕ) : termContrib 0 T = 0 := by
  simp [termContrib]

theorem termContrib_self (T : ℕ) (hT : 0 < T) : termContrib T T = 0 := by
  unfold termContrib
  rw [if_pos hT]
  have hTne : (T : ℝ) ≠ 0 := Nat.cast_ne_zero.mpr hT.ne'
  rw [div_self hTne, Real.logb_one, mul_zero]

theorem termContrib_nonpos (c T : ℕ) (hc : c ≤ T) : termContrib c T ≤ 0 := by
  unfold termContrib
  split
  · rename_i h
    have hT : 0 < T := lt_of_lt_of_le h hc
    have hTpos : (0:ℝ) < (T:ℝ) := by exact_mod_cast hT
    have hp0 : (0:ℝ) ≤ (c:ℝ) / (T:ℝ) := by positivity
    have hp1 : (c:ℝ) / (T:ℝ) ≤ 1 := by
      rw [div_le_one hTpos]
      exact_mod_cast hc
    have hlog : Real.logb 2 ((c:ℝ) / (T:ℝ)) ≤ 0 :=
      Real.logb_nonpos (by norm_num) hp0 hp1
    exact mul_nonpos_iff.mpr (Or.inl ⟨hp0, hlog⟩)
  · exact le_refl 0

theorem termContrib_eq_zero_iff (c T : ℕ) (hc : c ≤ T) (hT : 0 < T) :
    termContrib c T = 0 ↔ c = 0 ∨ c = T := by
  unfold termContrib
  split
  · rename_i h
    have hTne : (T : ℝ) ≠ 0 := Nat.cast_ne_zero.mpr hT.ne'
    have hpne : (c:ℝ) / (T:ℝ) ≠ 0 := by
      apply div_ne_zero _ hTne
      exact_mod_cast h.ne'
    constructor
    · intro hz
      rcases mul_eq_zero.mp hz with hp | hlog
      · exact absurd hp hpne
      · rcases Real.logb_eq_zero.mp hlog with h1 | h1 | h1 | h1 | h1 | h1
        · norm_num at h1
        · norm_num at h1
        · norm_num at h1
        · exact absurd h1 hpne
        · right
          field_simp at h1
          exact_mod_cast h1
        · exfalso
          have hp0 : (0:ℝ) ≤ (c:ℝ) / (T:ℝ) := by positivity
          rw [h1] at hp0
          norm_num at hp0
    · rintro (h0 | rfl)
      · omega
      · rw [div_self hTne, Real.logb_one, mul_zero]
  · rename_i h
    constructor
    · intro _
      left
      omega
    · intro _
      rfl

/-- The core entropy fact behind `H = 0 iff single category`: the count-based
entropy of a window is zero exactly when the window is empty or uniform. -/
theorem entropy_zero_iff_window (w : List TraderAction) :
    entropyFromCounts (fun a => w.count a) w.length = 0
      ↔ (w = [] ∨ ∃ c, ∀ x ∈ w, x = c) := by
  by_cases hw : w = []
  · subst hw
    simp [entropyFromCounts]
  · have hT : 0 < w.length := List.length_pos.mpr hw
    unfold entropyFromCounts
    rw [if_neg (by omega)]
    have hsum := count_three w
    have leH := List.count_le_length TraderAction.HOLD w
    have leB := List.count_le_length TraderAction.BUY w
    have leS := List.count_le_length TraderAction.SELL w
    constructor
    · intro h0
      have nH := termContrib_nonpos (w.count .HOLD) w.length leH
      have nB := termContrib_nonpos (w.count .BUY) w.length leB
      have nS := termContrib_nonpos (w.count .SELL) w.length leS
      have hsum0 : termContrib (w.count .HOLD) w.length
          + termContrib (w.count .BUY) w.length
          + termContrib (w.count .SELL) w.length = 0 := by linarith [neg_eq_zero.mp h0]
      have zH : termContrib (w.count .HOLD) w.length = 0 := by linarith
      have zB : termContrib (w.count .BUY) w.length = 0 := by linarith
      have zS : termContrib (w.count .SELL) w.length = 0 := by linarith
      have dH := (termContrib_eq_zero_iff _ _ leH hT).mp zH
      have dB := (termContrib_eq_zero_iff _ _ leB hT).mp zB
      have dS := (termContrib_eq_zero_iff _ _ leS hT).mp zS
      right
      rcases dH with hH | hH
      · rcases dB with hB | hB
        · rcases dS with hS | hS
          · omega
          · exact ⟨.SELL, fun x hx => (List.count_eq_length.mp hS x hx).symm⟩
        · exact ⟨.BUY, fun x hx => (List.count_eq_length.mp hB x hx).symm⟩
      · exact ⟨.HOLD, fun x hx => (List.count_eq_length.mp hH x hx).symm⟩
    · rintro (h | ⟨c, hc⟩)
      · exact absurd h hw
      · have key : ∀ a : TraderAction, termContrib (w.count a) w.length = 0 := by
          intro a
          by_cases hac : a = c
          · subst hac
            have : w.count a = w.length :=
              List.count_eq_length.mpr (fun b hb => (hc b hb).symm)
            rw [this]
            exact termContrib_self _ hT
          · have : w.count a = 0 :=
              List.count_eq_zero.mpr (fun hmem => hac (hc a hmem))
            rw [this]
            exact termContrib_zero _
        rw [key .HOLD, key .BUY, key .SELL]
        norm_num

theorem logb_half : Real.logb 2 ((1:ℝ)/2) = -1 := by
  rw [one_div, Real.logb_inv, Real.logb_self_eq_one (by norm_num)]

theorem termContrib_one_two : termContrib 1 2 = -(1/2 : ℝ) := by
  unfold termContrib
  rw [if_pos (by norm_num)]
  norm_num [logb_half]

theorem termContrib_n_3n (n : ℕ) (hn : 0 < n) :
    termContrib n (3 * n) = -(Real.logb 2 3 / 3) := by
  unfold termContrib
  rw [if_pos hn]
  have hn' : (n : ℝ) ≠ 0 := Nat.cast_ne_zero.mpr hn.ne'
  have hp : (n : ℝ) / ((3 * n : ℕ) : ℝ) = 1/3 := by
    push_cast
    field_simp
    ring
  rw [hp, one_div, Real.logb_inv]
  ring

theorem entropyFromCounts_equal (c : TraderAction → ℕ) (n : ℕ) (hn : 0 < n)
    (hH : c .HOLD = n) (hB : c .BUY = n) (hS : c .SELL = n) :
    entropyFromCounts c (3 * n) = Real.logb 2 3 := by
  unfold entropyFromCounts
  rw [if_neg (by omega), hH, hB, hS, termContrib_n_3n n hn]
  ring

theorem entropyFromCounts_single (c : TraderAction → ℕ) (T : ℕ)
    (hH : c .HOLD = T) (hB : c .BUY = 0) (hS : c .SELL = 0) :
    entropyFromCounts c T = 0 := by
  unfold entropyFromCounts
  rcases Nat.eq_zero_or_pos T with h | h
  · rw [if_pos h]
  · rw [if_neg h.ne', hH, hB, hS, termContrib_self _ h, termContrib_zero]
    norm_num

theorem entropyFromCounts_one_one (c : TraderAction → ℕ)
    (hH : c .HOLD = 1) (hB : c .BUY = 1) (hS : c .SELL = 0) :
    entropyFromCounts c 2 = 1 := by
  unfold entropyFromCounts
  rw [if_neg (by norm_num), hH, hB, hS, termContrib_one_two, termContrib_zero]
  norm_num

theorem logb_two_three_gt : (1.58 : ℝ) < Real.logb 2 3 := by
  have h2 : (0:ℝ) < Real.log 2 := Real.log_pos (by norm_num)
  have key : (79:ℝ) * Real.log 2 < 50 * Real.log 3 := by
    have hpow := Real.log_lt_log (by positivity : (0:ℝ) < 2 ^ (79:ℕ))
      (by norm_num : ((2:ℝ) ^ (79:ℕ)) < 3 ^ (50:ℕ))
    rw [Real.log_pow, Real.log_pow] at hpow
    push_cast at hpow
    linarith
  have hlogb : Real.logb 2 3 = Real.log 3 / Real.log 2 := rfl
  rw [hlogb, lt_div_iff h2]
  norm_num
  linarith

end SlidingEntropyCalculator

namespace SlidingEntropyCalculator

theorem adapt_ws_grow (s : SlidingEntropyCalculator)
    (h1 : |s.current_entropy - s.previous_entropy| > 0.1 ∧ s.window.length < s.max_window) :
    (adapt_window_size s).window_size = min (s.window.length + 10) s.max_window := by
  unfold adapt_window_size
  rw [if_pos h1]

theorem adapt_ws_shrink (s : SlidingEntropyCalculator)
    (h1 : ¬(|s.current_entropy - s.previous_entropy| > 0.1 ∧ s.window.length < s.max_window))
    (h2 : |s.current_entropy - s.previous_entropy| < 0.01 ∧ s.window.length > s.min_window) :
    (adapt_window_size s).window_size = max (wsub s.window.length 5) s.min_window := by
  unfold adapt_window_size
  rw [if_neg h1, if_pos h2]

theorem adapt_eq_of_none (s : SlidingEntropyCalculator)
    (h1 : ¬(|s.current_entropy - s.previous_entropy| > 0.1 ∧ s.window.length < s.max_window))
    (h2 : ¬(|s.current_entropy - s.previous_entropy| < 0.01 ∧ s.window.length > s.min_window)) :
    adapt_window_size s = s := by
  unfold adapt_window_size
  rw [if_neg h1, if_neg h2]

theorem pushStep_eq_append (s : SlidingEntropyCalculator) (a : TraderAction)
    (h : ¬ s.window.length ≥ s.window_size) : pushStep s a = appendAction s a := by
  unfold pushStep
  rw [if_neg h]

theorem pushStep_len (s : SlidingEntropyCalculator) (a : TraderAction) :
    (pushStep s a).window.length ≤ max (max s.window.length 1) s.window_size := by
  unfold pushStep appendAction
  split
  · cases hw : s.window with
    | nil =>
      simp [remove_oldest_action, hw]
    | cons o rest =>
      simp [remove_oldest_action, hw]
  · rename_i h
    simp
    omega

theorem foldl_pushStep_len (l : List TraderAction) :
    ∀ s : SlidingEntropyCalculator,
      (l.foldl pushStep s).window.length ≤ max (max s.window.length 1) s.window_size := by
  induction l with
  | nil =>
    intro s
    simp
  | cons a t ih =>
    intro s
    have h1 := ih (pushStep s a)
    have h2 := pushStep_len s a
    have h3 := pushStep_window_size s a
    rw [List.foldl_cons]
    rw [h3] at h1
    omega

theorem adapt_len_bound (s : SlidingEntropyCalculator)
    (h : s.window.length ≤ s.window_size + 5) :
    (adapt_window_size s).window.length ≤ (adapt_window_size s).window_size + 5 := by
  unfold adapt_window_size
  split
  · rename_i hg
    have := hg.2
    simp
    omega
  · split
    · rename_i hg hs
      have := hs.2
      unfold wsub
      simp
      split
      · omega
      · omega
    · exact h

/-- `len ≤ window_size + 5` is preserved by every public operation. -/
theorem lenBound_runOp (op : SECOp) (s : SlidingEntropyCalculator)
    (h : s.window.length ≤ s.window_size + 5) :
    (runOp op s).window.length ≤ (runOp op s).window_size + 5 := by
  cases op with
  | add a =>
    show (add_action a s).window.length ≤ (add_action a s).window_size + 5
    unfold add_action
    apply adapt_len_bound
    show (pushStep s a).window.length ≤ (pushStep s a).window_size + 5
    have h1 := pushStep_len s a
    have h2 := pushStep_window_size s a
    omega
  | batch l =>
    show (add_actions_batch l s).window.length ≤ (add_actions_batch l s).window_size + 5
    unfold add_actions_batch
    apply adapt_len_bound
    show (l.foldl pushStep s).window.length ≤ (l.foldl pushStep s).window_size + 5
    have h1 := foldl_pushStep_len l s
    have h2 := foldl_pushStep_window_size l s
    omega
  | setws n =>
    show (set_window_size n s).window.length ≤ (set_window_size n s).window_size + 5
    unfold set_window_size
    split
    · obtain ⟨hw, hws, -, -, -, -⟩ := trim_window_spec { s with window_size := n }
      rw [hw, hws]
      simp
      omega
    · exact h
  | clear =>
    show (clear s).window.length ≤ (clear s).window_size + 5
    simp [clear]

theorem lenBound_runOps (ops : List SECOp) :
    ∀ s : SlidingEntropyCalculator, s.window.length ≤ s.window_size + 5 →
      (runOps ops s).window.length ≤ (runOps ops s).window_size + 5 := by
  induction ops with
  | nil => intro s h; exact h
  | cons op t ih =>
    intro s h
    exact ih (runOp op s) (lenBound_runOp op s h)

end SlidingEntropyCalculator

namespace SlidingEntropyCalculator

/-- Claim C1, counterexample: a single `add_actions_batch` of six HOLDs on a
calculator constructed with `(window_size, min_window, max_window) =
(6, 5, 500)` ends with window length 6 but `window_size_ = 5`: the shrink
branch of `adapt_window_size` lowers the target below the current length
without trimming, so `len(window) <= window_size` does not hold after the
call. -/
theorem C1_counterexample :
    (add_actions_batch (List.replicate 6 TraderAction.HOLD) (init 6 5 500)).window_size
      < (add_actions_batch (List.replicate 6 TraderAction.HOLD) (init 6 5 500)).window.length := by
  unfold add_actions_batch
  obtain ⟨hw, hc, ht, hcur⟩ := foldl_pushStep_no_evict (List.replicate 6 TraderAction.HOLD)
    (init 6 5 500) (by simp [init]) (by intro a; norm_num [init]) (by norm_num [init])
  set F := (List.replicate 6 TraderAction.HOLD).foldl pushStep (init 6 5 500) with hF
  have hlen : F.window.length = 6 := by
    rw [hw]
    simp [init]
  have hcH : F.action_counts TraderAction.HOLD = 6 := by
    rw [hc]
    decide
  have hcB : F.action_counts TraderAction.BUY = 0 := by
    rw [hc]
    decide
  have hcS : F.action_counts TraderAction.SELL = 0 := by
    rw [hc]
    decide
  have htot : F.total_actions = 6 := by
    rw [ht]
    decide
  have hcur0 : F.current_entropy = 0 := by
    rw [hcur]
    rfl
  have hminw : F.min_window = 5 := by
    rw [foldl_pushStep_min_window]
    rfl
  have hu1 : (update_entropy_incremental F).current_entropy = 0 := by
    show entropyFromCounts F.action_counts F.total_actions = 0
    rw [htot]
    exact entropyFromCounts_single _ _ hcH hcB hcS
  have hu2 : (update_entropy_incremental F).previous_entropy = 0 := hcur0
  have hna : ¬(|(update_entropy_incremental F).current_entropy
        - (update_entropy_incremental F).previous_entropy| > 0.1
      ∧ (update_entropy_incremental F).window.length
        < (update_entropy_incremental F).max_window) := by
    rw [hu1, hu2]
    intro hcontra
    have h1 := hcontra.1
    norm_num at h1
  have hsh : |(update_entropy_incremental F).current_entropy
        - (update_entropy_incremental F).previous_entropy| < 0.01
      ∧ (update_entropy_incremental F).window.length
        > (update_entropy_incremental F).min_window := by
    constructor
    · rw [hu1, hu2]
      norm_num
    · show F.window.length > F.min_window
      rw [hlen, hminw]
      norm_num
  rw [adapt_ws_shrink _ hna hsh, adapt_window]
  show max (wsub F.window.length 5) F.min_window < F.window.length
  rw [hlen, hminw]
  decide

/-- Claim C1 (amended): across any sequence of mutating operations
(`add_action`, `add_actions_batch`, `set_window_size`, `clear`) from a
freshly constructed calculator, the window length exceeds the current
`window_size` by at most 5.  (The claimed `len(window) <= window_size` fails
because the shrink branch of `adapt_window_size` lowers the target by up to
5 below the current length without trimming.) -/
theorem C1_amended (ws minw maxw : ℕ) (ops : List SECOp) :
    (runOps ops (init ws minw maxw)).window.length
      ≤ (runOps ops (init ws minw maxw)).window_size + 5 :=
  lenBound_runOps ops (init ws minw maxw) (by simp [init])

end SlidingEntropyCalculator

namespace SlidingEntropyCalculator

theorem add_action_min_window (a : TraderAction) (s : SlidingEntropyCalculator) :
    (add_action a s).min_window = s.min_window := by
  unfold add_action
  rw [adapt_min_window]
  exact pushStep_min_window s a

theorem add_action_max_window (a : TraderAction) (s : SlidingEntropyCalculator) :
    (add_action a s).max_window = s.max_window := by
  unfold add_action
  rw [adapt_max_window]
  exact pushStep_max_window s a

theorem add_action_window (a : TraderAction) (s : SlidingEntropyCalculator) :
    (add_action a s).window = (pushStep s a).window := by
  unfold add_action
  rw [adapt_window]
  rfl

/-- One `add_action` step preserves the upper bound `window_size ≤ max_window`
when `5 ≤ min_window ≤ max_window` (so the `size_t` subtraction in the shrink
branch cannot wrap). -/
theorem C2_step (minw maxw : ℕ) (h5 : 5 ≤ minw) (hmm : minw ≤ maxw)
    (s : SlidingEntropyCalculator) (a : TraderAction)
    (hmin : s.min_window = minw) (hmax : s.max_window = maxw)
    (hws : s.window_size ≤ maxw) (hlb : s.window.length ≤ s.window_size + 5) :
    (add_action a s).min_window = minw ∧ (add_action a s).max_window = maxw
    ∧ (add_action a s).window_size ≤ maxw
    ∧ (add_action a s).window.length ≤ (add_action a s).window_size + 5 := by
  refine ⟨by rw [add_action_min_window, hmin], by rw [add_action_max_window, hmax], ?_, ?_⟩
  · unfold add_action
    have hplen := pushStep_len s a
    have hpws := pushStep_window_size s a
    have hpmin := pushStep_min_window s a
    have hpmax := pushStep_max_window s a
    unfold adapt_window_size
    split
    · rename_i hg
      have h2 := hg.2
      simp only [update_entropy_incremental] at h2 ⊢
      rw [hpmax, hmax] at h2 ⊢
      simp
    · split
      · rename_i hg hsr
        have h2 := hsr.2
        simp only [update_entropy_incremental] at h2 ⊢
        rw [hpmin, hmin] at h2 ⊢
        unfold wsub
        rw [if_pos (by omega)]
        omega
      · simp only [update_entropy_incremental]
        rw [hpws]
        exact hws
  · unfold add_action
    apply adapt_len_bound
    show (pushStep s a).window.length ≤ (pushStep s a).window_size + 5
    have h1 := pushStep_len s a
    have h2 := pushStep_window_size s a
    omega

/-- Claim C2 (amended): for a calculator constructed with
`5 ≤ min_window ≤ window_size ≤ max_window`, the adaptive `window_size`
never exceeds `max_window` across any sequence of `add_action` calls.  (The
claimed lower bound `min_window ≤ window_size` does not hold: the grow
branch can set `window_size` to `window_length + 10`, far below
`min_window`; the `5 ≤ min_window` hypothesis keeps the shrink branch's
unsigned `window_.size() - 5` from wrapping.) -/
theorem C2_amended (minw maxw ws : ℕ) (h5 : 5 ≤ minw) (hlo : minw ≤ ws)
    (hhi : ws ≤ maxw) (l : List TraderAction) :
    (runAdds l (init ws minw maxw)).window_size ≤ maxw := by
  have hmm : minw ≤ maxw := le_trans hlo hhi
  suffices h : ∀ l : List TraderAction, ∀ s : SlidingEntropyCalculator,
      s.min_window = minw → s.max_window = maxw → s.window_size ≤ maxw →
      s.window.length ≤ s.window_size + 5 →
      (runAdds l s).window_size ≤ maxw by
    exact h l (init ws minw maxw) rfl rfl hhi (by simp [init])
  intro l
  induction l with
  | nil =>
    intro s _ _ hws _
    exact hws
  | cons a t ih =>
    intro s hmin hmax hws hlb
    obtain ⟨k1, k2, k3, k4⟩ := C2_step minw maxw h5 hmm s a hmin hmax hws hlb
    exact ih (add_action a s) k1 k2 k3 k4

/-- Witness for the amended claim C2 at a concrete configuration. -/
theorem C2_amended_witness :
    5 ≤ 5 ∧ 5 ≤ 10 ∧ 10 ≤ 500
    ∧ (runAdds [TraderAction.HOLD] (init 10 5 500)).window_size ≤ 500 :=
  ⟨by norm_num, by norm_num, by norm_num,
    C2_amended 5 500 10 (by norm_num) (by norm_num) (by norm_num) [TraderAction.HOLD]⟩

/-- Claim C2, counterexample: with the default configuration
`(100, 50, 500)` (so `window_size` starts inside `[min_window, max_window]`),
after `add_action(HOLD)` then `add_action(BUY)` the grow branch sets
`window_size_ = min(2 + 10, 500) = 12 < min_window = 50`: `window_size`
leaves `[min_window, max_window]`. -/
theorem C2_counterexample :
    (add_action TraderAction.BUY (add_action TraderAction.HOLD (init 100 50 500))).window_size
      < 50 := by
  have hps1 : pushStep (init 100 50 500) TraderAction.HOLD
      = appendAction (init 100 50 500) TraderAction.HOLD :=
    pushStep_eq_append _ _ (by decide)
  set A := appendAction (init 100 50 500) TraderAction.HOLD with hA
  have hu1cur : (update_entropy_incremental A).current_entropy = 0 := by
    show entropyFromCounts A.action_counts A.total_actions = 0
    exact entropyFromCounts_single _ _ (by decide) (by decide) (by decide)
  have hu1prev : (update_entropy_incremental A).previous_entropy = 0 := by
    show A.current_entropy = 0
    rfl
  have hs1 : add_action TraderAction.HOLD (init 100 50 500) = update_entropy_incremental A := by
    unfold add_action
    rw [hps1]
    apply adapt_eq_of_none
    · rw [hu1cur, hu1prev]
      intro hcon
      have h1 := hcon.1
      norm_num at h1
    · rw [hu1cur, hu1prev]
      intro hcon
      exact absurd hcon.2 (by decide)
  have hps2 : pushStep (update_entropy_incremental A) TraderAction.BUY
      = appendAction (update_entropy_incremental A) TraderAction.BUY :=
    pushStep_eq_append _ _ (by decide)
  set B := appendAction (update_entropy_incremental A) TraderAction.BUY with hB
  have hu2cur : (update_entropy_incremental B).current_entropy = 1 := by
    show entropyFromCounts B.action_counts B.total_actions = 1
    have htot : B.total_actions = 2 := by decide
    rw [htot]
    exact entropyFromCounts_one_one _ (by decide) (by decide) (by decide)
  have hu2prev : (update_entropy_incremental B).previous_entropy = 0 := by
    show B.current_entropy = 0
    exact hu1cur
  have hg : |(update_entropy_incremental B).current_entropy
        - (update_entropy_incremental B).previous_entropy| > 0.1
      ∧ (update_entropy_incremental B).window.length
        < (update_entropy_incremental B).max_window := by
    constructor
    · rw [hu2cur, hu2prev]
      norm_num
    · decide
  rw [hs1]
  unfold add_action
  rw [hps2, adapt_ws_grow _ hg]
  decide

/-- Claim C3: evaluation of the code at the failing input.  With
`min_window = 0` and a single `add_action(HOLD)`, the shrink branch computes
`window_.size() - 5 = 1 - 5` in `size_t` arithmetic, so `window_size_`
becomes `2^64 - 4` instead of the specified
`max(window_length - 5, min_window) = 0`. -/
theorem C3_underflow :
    (add_action TraderAction.HOLD (init 10 0 20)).window_size = 2 ^ 64 - 4
    ∧ (add_action TraderAction.HOLD (init 10 0 20)).window_size ≠ max (1 - 5) 0 := by
  have hps : pushStep (init 10 0 20) TraderAction.HOLD
      = appendAction (init 10 0 20) TraderAction.HOLD :=
    pushStep_eq_append _ _ (by decide)
  set A := appendAction (init 10 0 20) TraderAction.HOLD with hA
  have hcur : (update_entropy_incremental A).current_entropy = 0 := by
    show entropyFromCounts A.action_counts A.total_actions = 0
    exact entropyFromCounts_single _ _ (by decide) (by decide) (by decide)
  have hprev : (update_entropy_incremental A).previous_entropy = 0 := by
    show A.current_entropy = 0
    rfl
  have h1 : ¬(|(update_entropy_incremental A).current_entropy
        - (update_entropy_incremental A).previous_entropy| > 0.1
      ∧ (update_entropy_incremental A).window.length
        < (update_entropy_incremental A).max_window) := by
    rw [hcur, hprev]
    intro hcon
    have hx := hcon.1
    norm_num at hx
  have h2 : |(update_entropy_incremental A).current_entropy
        - (update_entropy_incremental A).previous_entropy| < 0.01
      ∧ (update_entropy_incremental A).window.length
        > (update_entropy_incremental A).min_window := by
    constructor
    · rw [hcur, hprev]
      norm_num
    · decide
  have hmain : (add_action TraderAction.HOLD (init 10 0 20)).window_size = 2 ^ 64 - 4 := by
    unfold add_action
    rw [hps, adapt_ws_shrink _ h1 h2]
    decide
  refine ⟨hmain, ?_⟩
  rw [hmain]
  decide

end SlidingEntropyCalculator

namespace OptimizedQueue

/-- The drain loop removes exactly `min n (length items)` items, in FIFO
order, appending them to the accumulator. -/
theorem popLoop_spec {α : Type} (n : ℕ) : ∀ items acc : List α,
    popLoop n items acc
      = (items.drop (min n items.length), acc ++ items.take (min n items.length)) := by
  induction n with
  | zero =>
    intro items acc
    simp [popLoop]
  | succ k ih =>
    intro items acc
    cases items with
    | nil => simp [popLoop]
    | cons x rest =>
      rw [popLoop, ih]
      have hmin : min (k + 1) (x :: rest).length = min k rest.length + 1 := by
        simp [Nat.succ_min_succ]
      rw [hmin, List.drop_succ_cons, List.take_succ_cons]
      simp

theorem pushAll_zero_cap {α : Type} (bs : ℕ) (xs : List α) :
    pushAll (initQueue α 0 bs) xs = initQueue α 0 bs := by
  induction xs with
  | nil => rfl
  | cons y t ih =>
    show pushAll ((initQueue α 0 bs).push y).1 t = initQueue α 0 bs
    have hy : ((initQueue α 0 bs).push y).1 = initQueue α 0 bs := by
      unfold push
      rw [if_pos (by simp [initQueue])]
    rw [hy]
    exact ih

/-- Claim C4: `push` fails (false, queue unchanged) iff `size >= capacity`
at the check; otherwise it appends at the tail, bumps the size and returns
true; and on a capacity-0 queue every push fails and the queue stays empty. -/
theorem C4_push_capacity {α : Type} (q : OptimizedQueue α) (x : α) (bs : ℕ) (xs : List α) :
    ((q.push x).2 = false ∧ (q.push x).1 = q ↔ q.capacity ≤ q.size)
    ∧ (q.size < q.capacity →
        (q.push x).1.items = q.items ++ [x] ∧ (q.push x).1.size = q.size + 1
        ∧ (q.push x).2 = true)
    ∧ pushAll (initQueue α 0 bs) xs = initQueue α 0 bs
    ∧ ∀ y : α, ((initQueue α 0 bs).push y).2 = false := by
  refine ⟨⟨?_, ?_⟩, ?_, pushAll_zero_cap bs xs, ?_⟩
  · rintro ⟨hf, -⟩
    by_contra hlt
    push_neg at hlt
    unfold push at hf
    rw [if_neg (by omega)] at hf
    simp at hf
  · intro hge
    unfold push
    rw [if_pos hge]
    exact ⟨rfl, rfl⟩
  · intro hlt
    unfold push
    rw [if_neg (by omega)]
    exact ⟨rfl, rfl, rfl⟩
  · intro y
    unfold push
    rw [if_pos (by simp [initQueue])]

/-- Witness for claim C4 at a concrete queue: capacity 2, one item held,
a push succeeds and appends. -/
theorem C4_push_capacity_witness :
    (⟨2, 1, [5], 1⟩ : OptimizedQueue ℕ).size < (⟨2, 1, [5], 1⟩ : OptimizedQueue ℕ).capacity
    ∧ (((⟨2, 1, [5], 1⟩ : OptimizedQueue ℕ).push 7).1.items = [5] ++ [7]
        ∧ ((⟨2, 1, [5], 1⟩ : OptimizedQueue ℕ).push 7).1.size = 1 + 1
        ∧ ((⟨2, 1, [5], 1⟩ : OptimizedQueue ℕ).push 7).2 = true) :=
  ⟨by norm_num,
    (C4_push_capacity (⟨2, 1, [5], 1⟩ : OptimizedQueue ℕ) 7 1 []).2.1 (by norm_num)⟩

/-- Claim C5: `try_pop_batch` fails with the output batch untouched iff the
queue is empty; otherwise it fills the batch with the `min(batch_size, size)`
oldest items in FIFO order, removes them, decrements the size by exactly the
drained count, and returns true. -/
theorem C5_try_pop_batch {α : Type} (q : OptimizedQueue α) (b : List α)
    (hsync : q.size = q.items.length) :
    ((q.try_pop_batch b).2.2 = false ∧ (q.try_pop_batch b).2.1 = b ↔ q.items = [])
    ∧ (q.items ≠ [] →
        (q.try_pop_batch b).2.1 = q.items.take (min q.batch_size q.items.length)
        ∧ (q.try_pop_batch b).1.items = q.items.drop (min q.batch_size q.items.length)
        ∧ (q.try_pop_batch b).1.size = q.size - min q.batch_size q.items.length
        ∧ (q.try_pop_batch b).2.2 = true) := by
  unfold try_pop_batch
  by_cases h : q.items = []
  · rw [if_pos (by simp [h])]
    constructor
    · simp [h]
    · intro hne
      exact absurd h hne
  · rw [if_neg (by simp [h])]
    rw [popLoop_spec]
    constructor
    · constructor
      · intro hcon
        exact absurd hcon.1 (by simp)
      · intro h0
        exact absurd h0 h
    · intro _
      refine ⟨by simp, rfl, ?_, rfl⟩
      show wsub q.size (([] ++ q.items.take (min q.batch_size q.items.length)).length)
          = q.size - min q.batch_size q.items.length
      rw [hsync]
      unfold wsub
      rw [List.nil_append, List.length_take]
      rw [if_pos (by omega)]
      omega

/-- Witness for claim C5 at a concrete queue: three items, batch size 2. -/
theorem C5_try_pop_batch_witness :
    (⟨10, 2, [1, 2, 3], 3⟩ : OptimizedQueue ℕ).size
        = (⟨10, 2, [1, 2, 3], 3⟩ : OptimizedQueue ℕ).items.length
    ∧ ((⟨10, 2, [1, 2, 3], 3⟩ : OptimizedQueue ℕ).try_pop_batch [9]).2.1 = [1, 2]
    ∧ ((⟨10, 2, [1, 2, 3], 3⟩ : OptimizedQueue ℕ).try_pop_batch [9]).1.items = [3]
    ∧ ((⟨10, 2, [1, 2, 3], 3⟩ : OptimizedQueue ℕ).try_pop_batch [9]).1.size = 1
    ∧ ((⟨10, 2, [1, 2, 3], 3⟩ : OptimizedQueue ℕ).try_pop_batch [9]).2.2 = true := by
  have h := (C5_try_pop_batch (⟨10, 2, [1, 2, 3], 3⟩ : OptimizedQueue ℕ) [9] rfl).2
    (by decide)
  exact ⟨rfl, h.1.trans (by decide), h.2.1.trans (by decide), h.2.2.1.trans (by decide),
    h.2.2.2⟩

end OptimizedQueue

namespace SlidingEntropyCalculator

/-- Claim C6 (amended): for every state reachable by `add_action`,
`add_actions_batch` and `clear` from a fresh calculator — excluding
`set_window_size`, whose immediate trim does not recompute the entropy —
whose window holds fewer than `2^32` events (so the `uint32_t` counters have
not wrapped), `get_current_entropy()` is `0` iff the window is empty or all
events in the window belong to a single category. -/
theorem C6_amended (ws minw maxw : ℕ) (ops : List SECOp)
    (hops : ops.all (fun op => !op.isSetws) = true)
    (hlen : (runOps ops (init ws minw maxw)).window.length < 2 ^ 32) :
    (get_current_entropy (runOps ops (init ws minw maxw)) = 0
      ↔ ((runOps ops (init ws minw maxw)).window = []
          ∨ ∃ c, ∀ x ∈ (runOps ops (init ws minw maxw)).window, x = c)) := by
  set s := runOps ops (init ws minw maxw) with hs
  obtain ⟨hc, ht⟩ := wf_runOps ops (init ws minw maxw) (wf_init ws minw maxw)
  have hsync : s.current_entropy = entropyFromCounts s.action_counts s.total_actions :=
    sync_runOps ops hops (init ws minw maxw) (sync_init ws minw maxw)
  have hc2 : ∀ a, s.action_counts a = s.window.count a := by
    intro a
    rw [hc a, Nat.mod_eq_of_lt (lt_of_le_of_lt (List.count_le_length a s.window) hlen)]
  have ht2 : s.total_actions = s.window.length := by
    rw [ht, Nat.mod_eq_of_lt hlen]
  have hcongr : entropyFromCounts s.action_counts s.total_actions
      = entropyFromCounts (fun a => s.window.count a) s.window.length := by
    simp only [entropyFromCounts]
    rw [hc2, hc2, hc2, ht2]
  show s.current_entropy = 0 ↔ _
  rw [hsync, hcongr]
  exact entropy_zero_iff_window s.window

/-- Witness for the amended claim C6: a single `add_action(HOLD)`. -/
theorem C6_amended_witness :
    ([SECOp.add TraderAction.HOLD].all (fun op => !op.isSetws) = true)
    ∧ (runOps [SECOp.add TraderAction.HOLD] (init 100 50 500)).window.length < 2 ^ 32
    ∧ (get_current_entropy (runOps [SECOp.add TraderAction.HOLD] (init 100 50 500)) = 0
      ↔ ((runOps [SECOp.add TraderAction.HOLD] (init 100 50 500)).window = []
          ∨ ∃ c, ∀ x ∈ (runOps [SECOp.add TraderAction.HOLD] (init 100 50 500)).window,
              x = c)) := by
  have hwin : (runOps [SECOp.add TraderAction.HOLD] (init 100 50 500)).window
      = (pushStep (init 100 50 500) TraderAction.HOLD).window :=
    add_action_window TraderAction.HOLD (init 100 50 500)
  have hlen : (runOps [SECOp.add TraderAction.HOLD] (init 100 50 500)).window.length
      < 2 ^ 32 := by
    rw [hwin]
    decide
  exact ⟨by decide, hlen,
    C6_amended 100 50 500 [SECOp.add TraderAction.HOLD] (by decide) hlen⟩

/-- Claim C6, counterexample: build the window `[BUY, HOLD]` (entropy 1 bit),
then `set_window_size(1)`: the trim evicts `BUY`, leaving a single-category
window `[HOLD]`, but the stale `current_entropy_` is still `1`, not `0` —
`set_window_size`'s trim does not recompute the entropy. -/
theorem C6_counterexample :
    ¬(get_current_entropy (set_window_size 1
        (add_actions_batch [TraderAction.BUY, TraderAction.HOLD] (init 2 1 8))) = 0
      ↔ ((set_window_size 1
            (add_actions_batch [TraderAction.BUY, TraderAction.HOLD] (init 2 1 8))).window = []
          ∨ ∃ c, ∀ x ∈ (set_window_size 1
            (add_actions_batch [TraderAction.BUY, TraderAction.HOLD] (init 2 1 8))).window,
              x = c)) := by
  obtain ⟨hw, hc, ht, hcur⟩ := foldl_pushStep_no_evict
    [TraderAction.BUY, TraderAction.HOLD] (init 2 1 8) (by simp [init])
    (by intro a; norm_num [init]) (by norm_num [init])
  set F := [TraderAction.BUY, TraderAction.HOLD].foldl pushStep (init 2 1 8) with hF
  set B := add_actions_batch [TraderAction.BUY, TraderAction.HOLD] (init 2 1 8) with hB
  have hBcur : B.current_entropy = 1 := by
    rw [hB]
    unfold add_actions_batch
    rw [adapt_current]
    show entropyFromCounts F.action_counts F.total_actions = 1
    have htot : F.total_actions = 2 := by
      rw [ht]
      decide
    rw [htot]
    exact entropyFromCounts_one_one _ (by rw [hc]; decide) (by rw [hc]; decide)
      (by rw [hc]; decide)
  have hBwin : B.window = [TraderAction.BUY, TraderAction.HOLD] := by
    rw [hB]
    unfold add_actions_batch
    rw [adapt_window]
    show F.window = _
    rw [hw]
    rfl
  have hBmin : B.min_window = 1 := by
    rw [hB]
    unfold add_actions_batch
    rw [adapt_min_window]
    show F.min_window = 1
    rw [foldl_pushStep_min_window]
    rfl
  have hBmax : B.max_window = 8 := by
    rw [hB]
    unfold add_actions_batch
    rw [adapt_max_window]
    show F.max_window = 8
    rw [foldl_pushStep_max_window]
    rfl
  have hguard : B.min_window ≤ 1 ∧ 1 ≤ B.max_window := by
    rw [hBmin, hBmax]
    norm_num
  have hset : set_window_size 1 B = trim_window { B with window_size := 1 } := by
    unfold set_window_size
    rw [if_pos hguard]
  obtain ⟨tw, tws, -, -, tcur, -⟩ := trim_window_spec { B with window_size := 1 }
  have hSwin : (set_window_size 1 B).window = [TraderAction.HOLD] := by
    rw [hset, tw]
    show B.window.drop (B.window.length - 1) = _
    rw [hBwin]
    rfl
  have hScur : (set_window_size 1 B).current_entropy = 1 := by
    rw [hset, tcur]
    show B.current_entropy = 1
    exact hBcur
  intro hiff
  have h0 : (set_window_size 1 B).current_entropy = 0 := by
    apply hiff.mpr
    right
    refine ⟨TraderAction.HOLD, ?_⟩
    rw [hSwin]
    intro x hx
    simpa using hx
  rw [hScur] at h0
  norm_num at h0

/-- Claim C8 (amended): after any sequence of mutating operations from a
fresh calculator, the three per-category `uint32_t` counts sum to the window
length modulo `2^32`; exactly, whenever the window holds fewer than `2^32`
events (the counters wrap at `2^32`, so the unqualified equality fails —
see the counterexample). -/
theorem C8_counts_sum (ws minw maxw : ℕ) (ops : List SECOp) :
    ((runOps ops (init ws minw maxw)).action_counts TraderAction.HOLD
      + (runOps ops (init ws minw maxw)).action_counts TraderAction.BUY
      + (runOps ops (init ws minw maxw)).action_counts TraderAction.SELL) % 2 ^ 32
      = (runOps ops (init ws minw maxw)).window.length % 2 ^ 32
    ∧ ((runOps ops (init ws minw maxw)).window.length < 2 ^ 32 →
        (runOps ops (init ws minw maxw)).action_counts TraderAction.HOLD
          + (runOps ops (init ws minw maxw)).action_counts TraderAction.BUY
          + (runOps ops (init ws minw maxw)).action_counts TraderAction.SELL
          = (runOps ops (init ws minw maxw)).window.length) := by
  obtain ⟨hc, -⟩ := wf_runOps ops (init ws minw maxw) (wf_init ws minw maxw)
  have h3 := count_three (runOps ops (init ws minw maxw)).window
  have leH := List.count_le_length TraderAction.HOLD (runOps ops (init ws minw maxw)).window
  have leB := List.count_le_length TraderAction.BUY (runOps ops (init ws minw maxw)).window
  have leS := List.count_le_length TraderAction.SELL (runOps ops (init ws minw maxw)).window
  constructor
  · rw [hc, hc, hc]
    omega
  · intro hlen
    rw [hc, hc, hc]
    omega

/-- Witness for the amended claim C8: a single `add_action(HOLD)` on the
default configuration. -/
theorem C8_counts_sum_witness :
    (runOps [SECOp.add TraderAction.HOLD] (init 100 50 500)).window.length < 2 ^ 32
    ∧ (runOps [SECOp.add TraderAction.HOLD] (init 100 50 500)).action_counts TraderAction.HOLD
      + (runOps [SECOp.add TraderAction.HOLD] (init 100 50 500)).action_counts TraderAction.BUY
      + (runOps [SECOp.add TraderAction.HOLD] (init 100 50 500)).action_counts TraderAction.SELL
      = (runOps [SECOp.add TraderAction.HOLD] (init 100 50 500)).window.length := by
  have hwin : (runOps [SECOp.add TraderAction.HOLD] (init 100 50 500)).window
      = (pushStep (init 100 50 500) TraderAction.HOLD).window :=
    add_action_window TraderAction.HOLD (init 100 50 500)
  have hlen : (runOps [SECOp.add TraderAction.HOLD] (init 100 50 500)).window.length
      < 2 ^ 32 := by
    rw [hwin]
    decide
  exact ⟨hlen, (C8_counts_sum 100 50 500 [SECOp.add TraderAction.HOLD]).2 hlen⟩

/-- Claim C9: `set_window_size` with a size outside
`[min_window, max_window]` leaves the state entirely unchanged; with a size
inside the bounds it sets `window_size`, trims oldest-first, and leaves the
window no longer than the new size. -/
theorem C9_set_window_size (s : SlidingEntropyCalculator) (n : ℕ) :
    (¬(s.min_window ≤ n ∧ n ≤ s.max_window) → set_window_size n s = s)
    ∧ (s.min_window ≤ n → n ≤ s.max_window →
        (set_window_size n s).window_size = n
        ∧ (set_window_size n s).window = s.window.drop (s.window.length - n)
        ∧ (set_window_size n s).window.length ≤ n) := by
  constructor
  · intro h
    unfold set_window_size
    rw [if_neg h]
  · intro h1 h2
    unfold set_window_size
    rw [if_pos ⟨h1, h2⟩]
    obtain ⟨hw, hws, -, -, -, -⟩ := trim_window_spec { s with window_size := n }
    refine ⟨by rw [hws], by rw [hw], ?_⟩
    rw [hw]
    simp only [List.length_drop]
    omega

/-- Witness for claim C9: a concrete state with bounds `[2, 8]`, window
`[HOLD, BUY, SELL]`; a request of 9 is ignored, a request of 2 trims to
`[BUY, SELL]`. -/
theorem C9_set_window_size_witness :
    ¬((⟨5, 2, 8, [TraderAction.HOLD, TraderAction.BUY, TraderAction.SELL],
          fun _ => 1, 3, 0, 0⟩ : SlidingEntropyCalculator).min_window ≤ 9
        ∧ 9 ≤ (⟨5, 2, 8, [TraderAction.HOLD, TraderAction.BUY, TraderAction.SELL],
          fun _ => 1, 3, 0, 0⟩ : SlidingEntropyCalculator).max_window)
    ∧ set_window_size 9 (⟨5, 2, 8, [TraderAction.HOLD, TraderAction.BUY, TraderAction.SELL],
          fun _ => 1, 3, 0, 0⟩ : SlidingEntropyCalculator)
        = (⟨5, 2, 8, [TraderAction.HOLD, TraderAction.BUY, TraderAction.SELL],
          fun _ => 1, 3, 0, 0⟩ : SlidingEntropyCalculator)
    ∧ (set_window_size 2 (⟨5, 2, 8, [TraderAction.HOLD, TraderAction.BUY, TraderAction.SELL],
          fun _ => 1, 3, 0, 0⟩ : SlidingEntropyCalculator)).window_size = 2
    ∧ (set_window_size 2 (⟨5, 2, 8, [TraderAction.HOLD, TraderAction.BUY, TraderAction.SELL],
          fun _ => 1, 3, 0, 0⟩ : SlidingEntropyCalculator)).window
        = [TraderAction.BUY, TraderAction.SELL]
    ∧ (set_window_size 2 (⟨5, 2, 8, [TraderAction.HOLD, TraderAction.BUY, TraderAction.SELL],
          fun _ => 1, 3, 0, 0⟩ : SlidingEntropyCalculator)).window.length ≤ 2 := by
  have h9 := C9_set_window_size (⟨5, 2, 8, [TraderAction.HOLD, TraderAction.BUY,
    TraderAction.SELL], fun _ => 1, 3, 0, 0⟩ : SlidingEntropyCalculator) 9
  have h2 := C9_set_window_size (⟨5, 2, 8, [TraderAction.HOLD, TraderAction.BUY,
    TraderAction.SELL], fun _ => 1, 3, 0, 0⟩ : SlidingEntropyCalculator) 2
  have hin := h2.2 (by norm_num) (by norm_num)
  exact ⟨by norm_num, h9.1 (by norm_num), hin.1, hin.2.1.trans (by decide), hin.2.2⟩

end SlidingEntropyCalculator

namespace SlidingEntropyCalculator

/-- Claim C7 (amended): whenever the counts are `{n, n, n}` with `n > 0`
after a sequence of add operations (no `set_window_size`, whose trim leaves
the entropy stale) on a window holding fewer than `2^32` events (so the
`uint32_t` counters are exact), `get_current_entropy()` is within `1e-3` of
`log2 3` (in the exact-real model it is equal); and feeding the six events
`HOLD, BUY, SELL, HOLD, BUY, SELL` into any calculator with
`window_size >= 6` yields an entropy above `1.58` bits. -/
theorem C7_max_entropy (ws minw maxw : ℕ) (ops : List SECOp)
    (hops : ops.all (fun op => !op.isSetws) = true)
    (hlen : (runOps ops (init ws minw maxw)).window.length < 2 ^ 32) (n : ℕ) (hn : 0 < n)
    (hH : (runOps ops (init ws minw maxw)).action_counts TraderAction.HOLD = n)
    (hB : (runOps ops (init ws minw maxw)).action_counts TraderAction.BUY = n)
    (hS : (runOps ops (init ws minw maxw)).action_counts TraderAction.SELL = n) :
    |get_current_entropy (runOps ops (init ws minw maxw)) - Real.logb 2 3| ≤ 1 / 1000
    ∧ ∀ ws2 minw2 maxw2 : ℕ, 6 ≤ ws2 →
        1.58 < get_current_entropy (add_actions_batch sixEvents (init ws2 minw2 maxw2)) := by
  constructor
  · obtain ⟨hc, ht⟩ := wf_runOps ops (init ws minw maxw) (wf_init ws minw maxw)
    have hsync : (runOps ops (init ws minw maxw)).current_entropy
        = entropyFromCounts (runOps ops (init ws minw maxw)).action_counts
            (runOps ops (init ws minw maxw)).total_actions :=
      sync_runOps ops hops (init ws minw maxw) (sync_init ws minw maxw)
    have hc2 : ∀ a, (runOps ops (init ws minw maxw)).action_counts a
        = (runOps ops (init ws minw maxw)).window.count a := by
      intro a
      rw [hc a, Nat.mod_eq_of_lt (lt_of_le_of_lt (List.count_le_length a _) hlen)]
    have h3 := count_three (runOps ops (init ws minw maxw)).window
    rw [← hc2 TraderAction.HOLD, ← hc2 TraderAction.BUY, ← hc2 TraderAction.SELL] at h3
    have htot : (runOps ops (init ws minw maxw)).total_actions = 3 * n := by
      rw [ht, Nat.mod_eq_of_lt hlen]
      omega
    show |(runOps ops (init ws minw maxw)).current_entropy - _| ≤ _
    rw [hsync, htot,
      entropyFromCounts_equal (runOps ops (init ws minw maxw)).action_counts n hn hH hB hS]
    norm_num
  · intro ws2 minw2 maxw2 h6
    obtain ⟨hw, hc, ht, hcur⟩ := foldl_pushStep_no_evict sixEvents (init ws2 minw2 maxw2)
      (by simp [init, sixEvents]; omega) (by intro a; norm_num [init]) (by norm_num [init])
    set F := sixEvents.foldl pushStep (init ws2 minw2 maxw2) with hF
    have hcur2 : get_current_entropy (add_actions_batch sixEvents (init ws2 minw2 maxw2))
        = entropyFromCounts F.action_counts F.total_actions := by
      show (add_actions_batch sixEvents (init ws2 minw2 maxw2)).current_entropy = _
      unfold add_actions_batch
      rw [adapt_current, update_current, ← hF]
    have h0 : ∀ a, (init ws2 minw2 maxw2).action_counts a = 0 := fun _ => rfl
    have h0t : (init ws2 minw2 maxw2).total_actions = 0 := rfl
    have htot : F.total_actions = 3 * 2 := by
      rw [ht, h0t]
      decide
    have hcH : F.action_counts TraderAction.HOLD = 2 := by
      rw [hc, h0]
      decide
    have hcB : F.action_counts TraderAction.BUY = 2 := by
      rw [hc, h0]
      decide
    have hcS : F.action_counts TraderAction.SELL = 2 := by
      rw [hc, h0]
      decide
    rw [hcur2, htot, entropyFromCounts_equal F.action_counts 2 (by norm_num) hcH hcB hcS]
    exact logb_two_three_gt

/-- Witness for claim C7: one `add_actions_batch` of the six events on the
default configuration gives counts `{2, 2, 2}`; the scenario part at
`window_size = 6`. -/
theorem C7_max_entropy_witness :
    ([SECOp.batch sixEvents].all (fun op => !op.isSetws) = true)
    ∧ (runOps [SECOp.batch sixEvents] (init 100 50 500)).window.length < 2 ^ 32
    ∧ 0 < 2
    ∧ (runOps [SECOp.batch sixEvents] (init 100 50 500)).action_counts TraderAction.HOLD = 2
    ∧ (runOps [SECOp.batch sixEvents] (init 100 50 500)).action_counts TraderAction.BUY = 2
    ∧ (runOps [SECOp.batch sixEvents] (init 100 50 500)).action_counts TraderAction.SELL = 2
    ∧ |get_current_entropy (runOps [SECOp.batch sixEvents] (init 100 50 500))
        - Real.logb 2 3| ≤ 1 / 1000
    ∧ (6:ℕ) ≤ 6
    ∧ 1.58 < get_current_entropy (add_actions_batch sixEvents (init 6 50 500)) := by
  have hcounts : ∀ a, (runOps [SECOp.batch sixEvents] (init 100 50 500)).action_counts a
      = (sixEvents.foldl pushStep (init 100 50 500)).action_counts a := by
    intro a
    show (add_actions_batch sixEvents (init 100 50 500)).action_counts a = _
    unfold add_actions_batch
    rw [adapt_action_counts]
    rfl
  have hwin : (runOps [SECOp.batch sixEvents] (init 100 50 500)).window
      = (sixEvents.foldl pushStep (init 100 50 500)).window := by
    show (add_actions_batch sixEvents (init 100 50 500)).window = _
    unfold add_actions_batch
    rw [adapt_window]
    rfl
  obtain ⟨hw, hc, -, -⟩ := foldl_pushStep_no_evict sixEvents (init 100 50 500)
    (by simp [init, sixEvents]) (by intro a; norm_num [init]) (by norm_num [init])
  have hlen : (runOps [SECOp.batch sixEvents] (init 100 50 500)).window.length < 2 ^ 32 := by
    rw [hwin, hw]
    decide
  have hH : (runOps [SECOp.batch sixEvents] (init 100 50 500)).action_counts
      TraderAction.HOLD = 2 := by
    rw [hcounts, hc]
    decide
  have hB : (runOps [SECOp.batch sixEvents] (init 100 50 500)).action_counts
      TraderAction.BUY = 2 := by
    rw [hcounts, hc]
    decide
  have hS : (runOps [SECOp.batch sixEvents] (init 100 50 500)).action_counts
      TraderAction.SELL = 2 := by
    rw [hcounts, hc]
    decide
  have hmain := C7_max_entropy 100 50 500 [SECOp.batch sixEvents] (by decide) hlen 2
    (by norm_num) hH hB hS
  exact ⟨by decide, hlen, by norm_num, hH, hB, hS, hmain.1, by norm_num,
    hmain.2 6 50 500 (by norm_num)⟩

end SlidingEntropyCalculator

namespace SlidingEntropyCalculator

theorem mapTerm_eq (w : List TraderAction) (a : TraderAction) :
    EntropyCalculator.mapTerm w a = termContrib (w.count a) w.length := rfl

/-- The reference computation as a function of the window's exact tallies. -/
theorem calculate_entropy_eq (w : List TraderAction) :
    EntropyCalculator.calculate_entropy w
      = entropyFromCounts (fun a => w.count a) w.length := by
  by_cases hW : w = []
  · subst hW
    simp [EntropyCalculator.calculate_entropy, entropyFromCounts]
  · simp only [EntropyCalculator.calculate_entropy, entropyFromCounts]
    rw [if_neg hW, if_neg (fun h => hW (List.length_eq_zero.mp h))]
    rw [mapTerm_eq, mapTerm_eq, mapTerm_eq]

/-- Claim C10 (amended): after any sequence of `add_action` /
`add_actions_batch` calls leaving fewer than `2^31` events in the window
(within that bound the `uint32_t` counters are exact and the reference's
`int` arithmetic does not overflow), the incrementally maintained
`get_current_entropy()` equals the reference
`EntropyCalculator::calculate_entropy` recomputed from scratch on the
`get_window_actions()` snapshot. -/
theorem C10_refinement (ws minw maxw : ℕ) (ops : List SECOp)
    (hops : ops.all SECOp.isAddLike = true)
    (hlen : (runOps ops (init ws minw maxw)).window.length < 2 ^ 31) :
    get_current_entropy (runOps ops (init ws minw maxw))
      = EntropyCalculator.calculate_entropy
          (get_window_actions (runOps ops (init ws minw maxw))) := by
  have hops' : ops.all (fun op => !op.isSetws) = true := by
    rw [List.all_eq_true] at hops ⊢
    intro op hop
    have h1 := hops op hop
    cases op <;> simp_all [SECOp.isAddLike, SECOp.isSetws]
  obtain ⟨hc, ht⟩ := wf_runOps ops (init ws minw maxw) (wf_init ws minw maxw)
  have hlen32 : (runOps ops (init ws minw maxw)).window.length < 2 ^ 32 :=
    lt_trans hlen (by norm_num)
  have hsync : (runOps ops (init ws minw maxw)).current_entropy
      = entropyFromCounts (runOps ops (init ws minw maxw)).action_counts
          (runOps ops (init ws minw maxw)).total_actions :=
    sync_runOps ops hops' (init ws minw maxw) (sync_init ws minw maxw)
  have hc2 : ∀ a, (runOps ops (init ws minw maxw)).action_counts a
      = (runOps ops (init ws minw maxw)).window.count a := by
    intro a
    rw [hc a, Nat.mod_eq_of_lt (lt_of_le_of_lt (List.count_le_length a _) hlen32)]
  have ht2 : (runOps ops (init ws minw maxw)).total_actions
      = (runOps ops (init ws minw maxw)).window.length := by
    rw [ht, Nat.mod_eq_of_lt hlen32]
  show (runOps ops (init ws minw maxw)).current_entropy
      = EntropyCalculator.calculate_entropy (runOps ops (init ws minw maxw)).window
  rw [hsync, calculate_entropy_eq]
  simp only [entropyFromCounts]
  rw [hc2, hc2, hc2, ht2]

/-- Witness for the amended claim C10: a single `add_action(HOLD)` on the
default configuration. -/
theorem C10_refinement_witness :
    ([SECOp.add TraderAction.HOLD].all SECOp.isAddLike = true)
    ∧ (runOps [SECOp.add TraderAction.HOLD] (init 100 50 500)).window.length < 2 ^ 31
    ∧ get_current_entropy (runOps [SECOp.add TraderAction.HOLD] (init 100 50 500))
      = EntropyCalculator.calculate_entropy
          (get_window_actions (runOps [SECOp.add TraderAction.HOLD] (init 100 50 500))) := by
  have hwin : (runOps [SECOp.add TraderAction.HOLD] (init 100 50 500)).window
      = (pushStep (init 100 50 500) TraderAction.HOLD).window :=
    add_action_window TraderAction.HOLD (init 100 50 500)
  have hlen : (runOps [SECOp.add TraderAction.HOLD] (init 100 50 500)).window.length
      < 2 ^ 31 := by
    rw [hwin]
    decide
  exact ⟨by decide, hlen,
    C10_refinement 100 50 500 [SECOp.add TraderAction.HOLD] (by decide) hlen⟩

end SlidingEntropyCalculator

namespace SlidingEntropyCalculator

theorem logb_quarter : Real.logb 2 ((1:ℝ)/4) = -2 := by
  have h4 : (4:ℝ) = 2 ^ (2:ℕ) := by norm_num
  rw [one_div, Real.logb_inv, h4, Real.logb_pow, Real.logb_self_eq_one (by norm_num)]
  norm_num

theorem termContrib_one_four : termContrib 1 4 = -(1/4 : ℝ) * 2 := by
  unfold termContrib
  rw [if_pos (by norm_num)]
  norm_num [logb_quarter]

theorem termContrib_two_four : termContrib 2 4 = -(1/2 : ℝ) := by
  unfold termContrib
  rw [if_pos (by norm_num)]
  have h24 : ((2:ℕ):ℝ) / ((4:ℕ):ℝ) = (1:ℝ)/2 := by norm_num
  rw [h24, logb_half]
  norm_num

/-- The stored counts `{1, 2, 1}` over 4 events give exactly 1.5 bits. -/
theorem entropyFromCounts_1_2_1 (c : TraderAction → ℕ)
    (hH : c .HOLD = 1) (hB : c .BUY = 2) (hS : c .SELL = 1) :
    entropyFromCounts c 4 = 3/2 := by
  unfold entropyFromCounts
  rw [if_neg (by norm_num), hH, hB, hS, termContrib_one_four, termContrib_two_four]
  norm_num

theorem entropyFromCounts_single_buy (c : TraderAction → ℕ) (T : ℕ)
    (hH : c .HOLD = 0) (hB : c .BUY = T) (hS : c .SELL = 0) :
    entropyFromCounts c T = 0 := by
  unfold entropyFromCounts
  rcases Nat.eq_zero_or_pos T with h | h
  · rw [if_pos h]
  · rw [if_neg h.ne', hH, hB, hS, termContrib_self _ h, termContrib_zero]
    norm_num

/-- Claim C7, counterexample: on a calculator `(10, 1, 10)`, batch
`{BUY, HOLD, BUY, SELL}` gives entropy exactly 1.5 bits; `set_window_size(3)`
then trims the front `BUY`, leaving window `[HOLD, BUY, SELL]` with counts
`{1, 1, 1}` — but `get_current_entropy()` is still the stale 1.5, which is
about 0.085 away from `log2 3`, far beyond the claimed 1e-3 tolerance. -/
theorem C7_counterexample :
    (runOps [SECOp.batch [TraderAction.BUY, TraderAction.HOLD, TraderAction.BUY,
        TraderAction.SELL], SECOp.setws 3] (init 10 1 10)).action_counts TraderAction.HOLD = 1
    ∧ (runOps [SECOp.batch [TraderAction.BUY, TraderAction.HOLD, TraderAction.BUY,
        TraderAction.SELL], SECOp.setws 3] (init 10 1 10)).action_counts TraderAction.BUY = 1
    ∧ (runOps [SECOp.batch [TraderAction.BUY, TraderAction.HOLD, TraderAction.BUY,
        TraderAction.SELL], SECOp.setws 3] (init 10 1 10)).action_counts TraderAction.SELL = 1
    ∧ (runOps [SECOp.batch [TraderAction.BUY, TraderAction.HOLD, TraderAction.BUY,
        TraderAction.SELL], SECOp.setws 3] (init 10 1 10)).window
        = [TraderAction.HOLD, TraderAction.BUY, TraderAction.SELL]
    ∧ ¬(|get_current_entropy (runOps [SECOp.batch [TraderAction.BUY, TraderAction.HOLD,
        TraderAction.BUY, TraderAction.SELL], SECOp.setws 3] (init 10 1 10))
        - Real.logb 2 3| ≤ 1 / 1000) := by
  obtain ⟨hw, hc, ht, hcur⟩ := foldl_pushStep_no_evict
    [TraderAction.BUY, TraderAction.HOLD, TraderAction.BUY, TraderAction.SELL]
    (init 10 1 10) (by simp [init]) (by intro a; norm_num [init]) (by norm_num [init])
  set F := [TraderAction.BUY, TraderAction.HOLD, TraderAction.BUY,
    TraderAction.SELL].foldl pushStep (init 10 1 10) with hF
  set B := add_actions_batch [TraderAction.BUY, TraderAction.HOLD, TraderAction.BUY,
    TraderAction.SELL] (init 10 1 10) with hB
  have hBcur : B.current_entropy = 3/2 := by
    rw [hB]
    unfold add_actions_batch
    rw [adapt_current]
    show entropyFromCounts F.action_counts F.total_actions = 3/2
    have htot : F.total_actions = 4 := by
      rw [ht]
      decide
    rw [htot]
    exact entropyFromCounts_1_2_1 _ (by rw [hc]; decide) (by rw [hc]; decide)
      (by rw [hc]; decide)
  have hBwin : B.window = [TraderAction.BUY, TraderAction.HOLD, TraderAction.BUY,
      TraderAction.SELL] := by
    rw [hB]
    unfold add_actions_batch
    rw [adapt_window]
    show F.window = _
    rw [hw]
    rfl
  have hBmin : B.min_window = 1 := by
    rw [hB]
    unfold add_actions_batch
    rw [adapt_min_window]
    show F.min_window = 1
    rw [foldl_pushStep_min_window]
    rfl
  have hBmax : B.max_window = 10 := by
    rw [hB]
    unfold add_actions_batch
    rw [adapt_max_window]
    show F.max_window = 10
    rw [foldl_pushStep_max_window]
    rfl
  have hguard : B.min_window ≤ 3 ∧ 3 ≤ B.max_window := by
    rw [hBmin, hBmax]
    norm_num
  have hset : set_window_size 3 B = trim_window { B with window_size := 3 } := by
    unfold set_window_size
    rw [if_pos hguard]
  obtain ⟨tw, -, -, -, tcur, -⟩ := trim_window_spec { B with window_size := 3 }
  have hSwin : (set_window_size 3 B).window
      = [TraderAction.HOLD, TraderAction.BUY, TraderAction.SELL] := by
    rw [hset, tw]
    show B.window.drop (B.window.length - 3) = _
    rw [hBwin]
    rfl
  have hScur : (set_window_size 3 B).current_entropy = 3/2 := by
    rw [hset, tcur]
    exact hBcur
  have hrun : runOps [SECOp.batch [TraderAction.BUY, TraderAction.HOLD, TraderAction.BUY,
      TraderAction.SELL], SECOp.setws 3] (init 10 1 10) = set_window_size 3 B := by
    rw [hB]
    rfl
  obtain ⟨hcS, -⟩ := wf_runOps [SECOp.batch [TraderAction.BUY, TraderAction.HOLD,
    TraderAction.BUY, TraderAction.SELL], SECOp.setws 3] (init 10 1 10) (wf_init 10 1 10)
  refine ⟨?_, ?_, ?_, by rw [hrun]; exact hSwin, ?_⟩
  · rw [hcS TraderAction.HOLD, hrun, hSwin]
    decide
  · rw [hcS TraderAction.BUY, hrun, hSwin]
    decide
  · rw [hcS TraderAction.SELL, hrun, hSwin]
    decide
  · have hcur3 : get_current_entropy (runOps [SECOp.batch [TraderAction.BUY,
        TraderAction.HOLD, TraderAction.BUY, TraderAction.SELL], SECOp.setws 3]
        (init 10 1 10)) = 3/2 := by
      rw [hrun]
      exact hScur
    rw [hcur3]
    intro habs
    rw [abs_le] at habs
    have h158 := logb_two_three_gt
    have h1 := habs.1
    norm_num at h1 h158
    linarith

/-- Claim C8, counterexample: on a calculator constructed with
`window_size = 2^33` (the constructor validates nothing), one batch of
`2^32` HOLD events wraps the `uint32_t` HOLD counter back to 0 while the
window really holds `2^32` events, so the counts sum to 0, not the window
length. -/
theorem C8_counterexample :
    (runOps [SECOp.batch (List.replicate (2 ^ 32) TraderAction.HOLD)]
        (init (2 ^ 33) 50 500)).action_counts TraderAction.HOLD
      + (runOps [SECOp.batch (List.replicate (2 ^ 32) TraderAction.HOLD)]
        (init (2 ^ 33) 50 500)).action_counts TraderAction.BUY
      + (runOps [SECOp.batch (List.replicate (2 ^ 32) TraderAction.HOLD)]
        (init (2 ^ 33) 50 500)).action_counts TraderAction.SELL
      ≠ (runOps [SECOp.batch (List.replicate (2 ^ 32) TraderAction.HOLD)]
        (init (2 ^ 33) 50 500)).window.length := by
  obtain ⟨hw, hc, -, -⟩ := foldl_pushStep_no_evict
    (List.replicate (2 ^ 32) TraderAction.HOLD) (init (2 ^ 33) 50 500)
    (by
      have h1 : (init (2 ^ 33) 50 500).window.length = 0 := rfl
      have h2 : (init (2 ^ 33) 50 500).window_size = 2 ^ 33 := rfl
      rw [h1, h2, List.length_replicate]
      norm_num)
    (by intro a; norm_num [init]) (by norm_num [init])
  set F := (List.replicate (2 ^ 32) TraderAction.HOLD).foldl pushStep
    (init (2 ^ 33) 50 500) with hF
  have hcounts : ∀ a, (runOps [SECOp.batch (List.replicate (2 ^ 32) TraderAction.HOLD)]
      (init (2 ^ 33) 50 500)).action_counts a = F.action_counts a := by
    intro a
    show (add_actions_batch (List.replicate (2 ^ 32) TraderAction.HOLD)
      (init (2 ^ 33) 50 500)).action_counts a = _
    unfold add_actions_batch
    rw [adapt_action_counts, update_action_counts, ← hF]
  have hwin : (runOps [SECOp.batch (List.replicate (2 ^ 32) TraderAction.HOLD)]
      (init (2 ^ 33) 50 500)).window = F.window := by
    show (add_actions_batch (List.replicate (2 ^ 32) TraderAction.HOLD)
      (init (2 ^ 33) 50 500)).window = _
    unfold add_actions_batch
    rw [adapt_window, update_window, ← hF]
  have h0 : ∀ a, (init (2 ^ 33) 50 500).action_counts a = 0 := fun _ => rfl
  have hH : (runOps [SECOp.batch (List.replicate (2 ^ 32) TraderAction.HOLD)]
      (init (2 ^ 33) 50 500)).action_counts TraderAction.HOLD = 0 := by
    rw [hcounts, hc, h0, List.count_replicate_self]
    norm_num
  have hzB : List.count TraderAction.BUY (List.replicate (2 ^ 32) TraderAction.HOLD) = 0 :=
    List.count_eq_zero.mpr (by
      intro hmem
      have h2 := (List.mem_replicate.mp hmem).2
      exact absurd h2 (by decide))
  have hzS : List.count TraderAction.SELL (List.replicate (2 ^ 32) TraderAction.HOLD) = 0 :=
    List.count_eq_zero.mpr (by
      intro hmem
      have h2 := (List.mem_replicate.mp hmem).2
      exact absurd h2 (by decide))
  have hB : (runOps [SECOp.batch (List.replicate (2 ^ 32) TraderAction.HOLD)]
      (init (2 ^ 33) 50 500)).action_counts TraderAction.BUY = 0 := by
    rw [hcounts, hc, h0, hzB]
    norm_num
  have hS : (runOps [SECOp.batch (List.replicate (2 ^ 32) TraderAction.HOLD)]
      (init (2 ^ 33) 50 500)).action_counts TraderAction.SELL = 0 := by
    rw [hcounts, hc, h0, hzS]
    norm_num
  have hlen : (runOps [SECOp.batch (List.replicate (2 ^ 32) TraderAction.HOLD)]
      (init (2 ^ 33) 50 500)).window.length = 2 ^ 32 := by
    have hinw : (init (2 ^ 33) 50 500).window = [] := rfl
    rw [hwin, hw, hinw, List.nil_append, List.length_replicate]
  rw [hH, hB, hS, hlen]
  norm_num

/-- Claim C10, counterexample: after one batch of `2^32` HOLDs plus one BUY
on a calculator with `window_size = 2^33`, the wrapped `uint32_t` counters
read `{0, 1, 0}` with total 1, so the incremental `get_current_entropy()`
is 0.0 — while the from-scratch computation over the actual two-category
window snapshot is nonzero (and on the real machine its `int` arithmetic
has already overflowed). -/
theorem C10_counterexample :
    get_current_entropy (runOps [SECOp.batch (List.replicate (2 ^ 32) TraderAction.HOLD
        ++ [TraderAction.BUY])] (init (2 ^ 33) 50 500))
      ≠ EntropyCalculator.calculate_entropy (get_window_actions
        (runOps [SECOp.batch (List.replicate (2 ^ 32) TraderAction.HOLD
        ++ [TraderAction.BUY])] (init (2 ^ 33) 50 500))) := by
  obtain ⟨hw, hc, ht, -⟩ := foldl_pushStep_no_evict
    (List.replicate (2 ^ 32) TraderAction.HOLD ++ [TraderAction.BUY])
    (init (2 ^ 33) 50 500)
    (by
      have h1 : (init (2 ^ 33) 50 500).window.length = 0 := rfl
      have h2 : (init (2 ^ 33) 50 500).window_size = 2 ^ 33 := rfl
      have h3 : ([TraderAction.BUY] : List TraderAction).length = 1 := rfl
      rw [h1, h2, List.length_append, List.length_replicate, h3]
      norm_num)
    (by intro a; norm_num [init]) (by norm_num [init])
  set F := (List.replicate (2 ^ 32) TraderAction.HOLD
    ++ [TraderAction.BUY]).foldl pushStep (init (2 ^ 33) 50 500) with hF
  have h0 : ∀ a, (init (2 ^ 33) 50 500).action_counts a = 0 := fun _ => rfl
  have h0t : (init (2 ^ 33) 50 500).total_actions = 0 := rfl
  have hzB : List.count TraderAction.BUY (List.replicate (2 ^ 32) TraderAction.HOLD) = 0 :=
    List.count_eq_zero.mpr (by
      intro hmem
      have h2 := (List.mem_replicate.mp hmem).2
      exact absurd h2 (by decide))
  have hzS : List.count TraderAction.SELL (List.replicate (2 ^ 32) TraderAction.HOLD) = 0 :=
    List.count_eq_zero.mpr (by
      intro hmem
      have h2 := (List.mem_replicate.mp hmem).2
      exact absurd h2 (by decide))
  have hzHb : List.count TraderAction.HOLD [TraderAction.BUY] = 0 := by decide
  have hzSb : List.count TraderAction.SELL [TraderAction.BUY] = 0 := by decide
  have hFH : F.action_counts TraderAction.HOLD = 0 := by
    rw [hc, h0, List.count_append, List.count_replicate_self, hzHb]
    norm_num
  have hFB : F.action_counts TraderAction.BUY = 1 := by
    rw [hc, h0, List.count_append, hzB]
    norm_num
  have hFS : F.action_counts TraderAction.SELL = 0 := by
    rw [hc, h0, List.count_append, hzS, hzSb]
    norm_num
  have hFtot : F.total_actions = 1 := by
    have h3 : ([TraderAction.BUY] : List TraderAction).length = 1 := rfl
    rw [ht, h0t, List.length_append, List.length_replicate, h3]
    norm_num
  have hcur : get_current_entropy (runOps [SECOp.batch (List.replicate (2 ^ 32)
      TraderAction.HOLD ++ [TraderAction.BUY])] (init (2 ^ 33) 50 500)) = 0 := by
    show (add_actions_batch (List.replicate (2 ^ 32) TraderAction.HOLD
      ++ [TraderAction.BUY]) (init (2 ^ 33) 50 500)).current_entropy = 0
    unfold add_actions_batch
    rw [adapt_current, update_current, ← hF, hFtot]
    exact entropyFromCounts_single_buy _ _ hFH hFB hFS
  have hwact : get_window_actions (runOps [SECOp.batch (List.replicate (2 ^ 32)
      TraderAction.HOLD ++ [TraderAction.BUY])] (init (2 ^ 33) 50 500))
      = List.replicate (2 ^ 32) TraderAction.HOLD ++ [TraderAction.BUY] := by
    show (add_actions_batch (List.replicate (2 ^ 32) TraderAction.HOLD
      ++ [TraderAction.BUY]) (init (2 ^ 33) 50 500)).window = _
    unfold add_actions_batch
    rw [adapt_window, update_window, ← hF, hw]
    have hinw : (init (2 ^ 33) 50 500).window = [] := rfl
    rw [hinw, List.nil_append]
  have hne : EntropyCalculator.calculate_entropy
      (List.replicate (2 ^ 32) TraderAction.HOLD ++ [TraderAction.BUY]) ≠ 0 := by
    rw [calculate_entropy_eq]
    intro hzero
    rcases (entropy_zero_iff_window _).mp hzero with hnil | ⟨c, hall⟩
    · obtain ⟨-, habs⟩ := List.append_eq_nil.mp hnil
      exact absurd habs (by decide)
    · have hmH : TraderAction.HOLD ∈ List.replicate (2 ^ 32) TraderAction.HOLD
          ++ [TraderAction.BUY] :=
        List.mem_append_left _ (List.mem_replicate.mpr ⟨by norm_num, rfl⟩)
      have hmB : TraderAction.BUY ∈ List.replicate (2 ^ 32) TraderAction.HOLD
          ++ [TraderAction.BUY] :=
        List.mem_append_right _ (by simp)
      have e1 := hall _ hmH
      have e2 := hall _ hmB
      exact absurd (e1.trans e2.symm) (by decide)
  intro heq
  rw [hcur, hwact] at heq
  exact hne heq.symm

end SlidingEntropyCalculator
